import Mathlib

/-!
Verification of `single_process_multigpu.cpp`.

A shallow embedding of `main` of `single_process_multigpu.cpp`: a single linear
procedure that drives two GPUs through the CUDA runtime, the CUDA driver and
NCCL.  The libraries are not part of the program; they are represented by an
oracle that answers every call with the status it returns (and, for
`cuDeviceGetAttribute`, with the value it stores through its `int*` argument).
The program state is the list of calls issued so far, the lines printed so far
and the local variable `supportsVMM`.

Device pointers, streams and communicators are identified by the array slot
that holds them (`sendbuff[i]`, `recvbuff[i]`, `s[i]`, `comms[i]`): every slot
is written once, by the call that receives its address, before it is read.
Only the calls written in the text of `main` and of the checking wrappers it
uses (`CUDACHECK`, `NCCLCHECK`, `checkDrvError`) are recorded; the latter look
up the error string of a failed call before printing.
-/

namespace SingleProcessMultiGpu

/-! ## Constants of `main` -/

/-- Machine `int` (32-bit two's complement) wrap-around. -/
def wrapInt32 (x : Int) : Int := (x + 2 ^ 31) % 2 ^ 32 - 2 ^ 31

/-- Source line 49: `int nDev = 2;`. -/
def nDev : Nat := 2

/-- Source line 50: `int size = 32*1024*1024;`, evaluated in `int` arithmetic. -/
def size : Int := wrapInt32 (wrapInt32 (32 * 1024) * 1024)

/-- Source line 51: `int devs[2] = { 0, 1 };`. -/
def devs : List Nat := [0, 1]

/-- Width of `size_t` on the 64-bit hosts CUDA supports. -/
def sizeTBits : Nat := 64

/-- Conversion of an `int` to `size_t` (reduction modulo `2 ^ sizeTBits`). -/
def toSizeT (x : Int) : Nat := (x % 2 ^ sizeTBits).toNat

/-- Value of `sizeof(float)`: 4 bytes (IEEE single precision, as CUDA requires). -/
def sizeofFloat : Nat := 4

/-- Expression `size * sizeof(float)` (lines 91-100), evaluated in `size_t` arithmetic. -/
def byteCount : Nat := (toSizeT size * sizeofFloat) % 2 ^ sizeTBits

/-- Success status shared by `cudaSuccess`, `ncclSuccess` and `CUDA_SUCCESS`. -/
def statusSuccess : Nat := 0

/-- Value of `EXIT_FAILURE` of `<cstdlib>`. -/
def EXIT_FAILURE : Nat := 1

/-- Text printed at line 136. -/
def successText : String := "Success \n"

/-- Text printed to stderr at line 73. -/
def notSupportedText : String := "not support CUDA VMM\n"

/-! ## Calls, call sites, events -/

/-- Which of the two pointer arrays a device buffer slot belongs to. -/
inductive Buf
  | sendbuff
  | recvbuff
deriving DecidableEq, Repr

/-- Element types of `nccl.h` (only `ncclFloat` is used by `main`). -/
inductive NcclDataType
  | ncclChar
  | ncclFloat
  | ncclDouble
deriving DecidableEq, Repr

/-- Size in bytes of one element of an NCCL data type. -/
def ncclTypeSize : NcclDataType → Nat
  | .ncclChar => 1
  | .ncclFloat => 4
  | .ncclDouble => 8

/-- Reduction operators of `nccl.h` (only `ncclSum` is used by `main`). -/
inductive NcclRedOp
  | ncclSum
  | ncclProd
deriving DecidableEq, Repr

/-- The calls `main` can issue, with the arguments that matter.  A buffer,
stream or communicator argument is the slot it is read from or written to.
`cudaStreamDestroy` belongs to the runtime surface but no line of `main`
issues it.  The three error-string lookups are issued by the checking wrappers
with the status of the failed call as argument. -/
inductive Call
  | cudaSetDevice (i : Nat)
  | cudaFreeNull
  | cuCtxGetCurrent (i : Nat)
  | cuCtxGetDevice (i : Nat)
  | cuDeviceGetAttribute (i : Nat)
  | vectorCtor (b : Buf) (ctx : Nat)
  | vectorGrow (b : Buf) (i : Nat) (bytes : Nat)
  | vectorGetPointer (b : Buf) (i : Nat)
  | cudaMalloc (b : Buf) (i : Nat) (bytes : Nat)
  | cudaMemset (b : Buf) (i : Nat) (value : Nat) (bytes : Nat)
  | cudaStreamCreate (i : Nat)
  | cudaStreamDestroy (i : Nat)
  | ncclCommInitAll (ndev : Nat) (devlist : List Nat)
  | ncclGroupStart
  | ncclAllReduce (sb : Buf) (si : Nat) (rb : Buf) (ri : Nat) (count : Nat)
      (datatype : NcclDataType) (op : NcclRedOp) (comm : Nat) (stream : Nat)
  | ncclGroupEnd
  | cudaStreamSynchronize (i : Nat)
  | cudaFree (b : Buf) (i : Nat)
  | ncclCommDestroy (i : Nat)
  | cudaGetErrorString (error : Nat)
  | ncclGetErrorString (result : Nat)
  | cuGetErrorString (error : Nat)
deriving DecidableEq, Repr

/-- How the status of a call is treated at its call site. -/
inductive Check
  | cuda
  | nccl
  | drv
  | ignored
deriving DecidableEq, Repr

/-- Whether a failed check terminates the process (`CUDACHECK`, `NCCLCHECK`). -/
def Check.aborts : Check → Bool
  | .cuda => true
  | .nccl => true
  | .drv => false
  | .ignored => false

/-- A call site of `main`: its source line, the wrapper around the call, and the
call. -/
structure Site where
  line : Nat
  check : Check
  call : Call
deriving DecidableEq, Repr

/-- Answer of the libraries to one call: the status returned and, when the call
stores an `int` through an out-pointer, the value stored. -/
structure Resp where
  status : Nat
  stored : Option Int
deriving DecidableEq, Repr

/-- The libraries: the answer to the `n`-th call issued by the process. -/
abbrev Oracle := Nat → Call → Resp

/-- One issued call together with the answer it received. -/
structure Event where
  site : Site
  status : Nat
  stored : Option Int
deriving DecidableEq, Repr

/-- Lines printed by the process. -/
inductive Output
  | cudaError (line : Nat) (status : Nat)
  | ncclError (line : Nat) (status : Nat)
  | drvError (line : Nat) (status : Nat)
  | stderr (text : String)
  | stdout (text : String)
deriving DecidableEq, Repr

/-- Program state: calls issued, lines printed, and the local `supportsVMM`
(line 62, initially 0; unused when `USE_CUDA_VMM` is 0). -/
structure World where
  trace : List Event
  out : List Output
  supportsVMM : Int
deriving DecidableEq, Repr

/-- State at entry of `main`. -/
def World.init : World := ⟨[], [], 0⟩

/-- Result of running a statement: control falls through, or the process ends
with an exit status (`exit(code)`, or `return code` from `main`). -/
inductive Outcome
  | running (w : World)
  | exited (code : Nat) (w : World)
deriving DecidableEq, Repr

/-- Final or current state of an outcome. -/
def Outcome.world : Outcome → World
  | .running w => w
  | .exited _ w => w

/-- Exit status of an outcome, if the process has ended. -/
def Outcome.exitCode : Outcome → Option Nat
  | .running _ => none
  | .exited c _ => some c

/-- A statement of `main`. -/
abbrev Prog := Oracle → World → Outcome

/-! ## Statements -/

/-- The empty statement. -/
def skip : Prog := fun _ w => .running w

/-- Sequential composition `p; q`. -/
def seq (p q : Prog) : Prog := fun o w =>
  match p o w with
  | .running w1 => q o w1
  | .exited c w1 => .exited c w1

/-- A brace-enclosed statement list. -/
def block : List Prog → Prog
  | [] => skip
  | p :: ps => seq p (block ps)

/-- Iterations `i, i+1, ..., i+k-1` of a loop body. -/
def forCount (body : Nat → Prog) : Nat → Nat → Prog
  | _, 0 => skip
  | i, k + 1 => seq (body i) (forCount body (i + 1) k)

/-- Loop `for (int i = 0; i < n; ++i) body`. -/
def forDev (n : Nat) (body : Nat → Prog) : Prog := forCount body 0 n

/-- Value of `supportsVMM` after a call: `cuDeviceGetAttribute` receives
`&supportsVMM`, no other call does. -/
def storeVMM (v : Int) (c : Call) (stored : Option Int) : Int :=
  match c, stored with
  | .cuDeviceGetAttribute _, some x => x
  | _, _ => v

/-- Issue a call: ask the oracle, record the event, apply the out-parameter. -/
def World.issue (w : World) (o : Oracle) (s : Site) : World :=
  let r := o w.trace.length s.call
  { trace := w.trace ++ [⟨s, r.status, r.stored⟩]
    out := w.out
    supportsVMM := storeVMM w.supportsVMM s.call r.stored }

/-- Status returned by the call that `World.issue` records. -/
def World.answer (w : World) (o : Oracle) (c : Call) : Nat := (o w.trace.length c).status

/-- Append a printed line. -/
def World.print (w : World) (x : Output) : World := { w with out := w.out ++ [x] }

/-- Lines 10-17: `CUDACHECK(cmd)`.  On failure the arguments of `printf` are
evaluated first, which calls `cudaGetErrorString(e)` (line 14); its result is
only printed. -/
def CUDACHECK (line : Nat) (cmd : Call) : Prog := fun o w =>
  let e := w.answer o cmd
  let w1 := w.issue o ⟨line, .cuda, cmd⟩
  if e ≠ statusSuccess then
    let w2 := w1.issue o ⟨14, .ignored, .cudaGetErrorString e⟩
    .exited EXIT_FAILURE (w2.print (.cudaError line e))
  else
    .running w1

/-- Lines 20-27: `NCCLCHECK(cmd)`.  On failure the arguments of `printf` are
evaluated first, which calls `ncclGetErrorString(r)` (line 24); its result is
only printed. -/
def NCCLCHECK (line : Nat) (cmd : Call) : Prog := fun o w =>
  let r := w.answer o cmd
  let w1 := w.issue o ⟨line, .nccl, cmd⟩
  if r ≠ statusSuccess then
    let w2 := w1.issue o ⟨24, .ignored, .ncclGetErrorString r⟩
    .exited EXIT_FAILURE (w2.print (.ncclError line r))
  else
    .running w1

/-- Lines 30-41: `CHECK_DRV(x)`, that is `checkDrvError(x, ...)`: on failure
call `cuGetErrorString(res, &errStr)` (line 35, status discarded), print, then
continue. -/
def CHECK_DRV (line : Nat) (x : Call) : Prog := fun o w =>
  let res := w.answer o x
  let w1 := w.issue o ⟨line, .drv, x⟩
  if res ≠ statusSuccess then
    let w2 := w1.issue o ⟨35, .ignored, .cuGetErrorString res⟩
    .running (w2.print (.drvError line res))
  else
    .running w1

/-- A call statement whose status is discarded (lines 68 and 134). -/
def callIgnored (line : Nat) (c : Call) : Prog := fun o w =>
  .running (w.issue o ⟨line, .ignored, c⟩)

/-- Modelled from the spec: header `cuvector.h` (class `cuda_utils::Vector` with
the `VectorMemMap` allocator) is not in the source tree.  The spec describes it
as an allocator that "reserves an address range and grows the mapped region
dynamically"; its constructor, `grow` and `getPointer` are recorded as calls
whose results `main` never inspects. -/
def cuvectorCall (line : Nat) (c : Call) : Prog := callIgnored line c

/-- Lines 72-75: `if (not supportsVMM) { fprintf(stderr, ...); return 0; }`. -/
def vmmGate : Prog := fun _ w =>
  if w.supportsVMM = 0 then
    .exited 0 (w.print (.stderr notSupportedText))
  else
    .running w

/-- Line 136: `printf("Success \n");`. -/
def printSuccess : Prog := fun _ w => .running (w.print (.stdout successText))

/-- Line 137: `return 0;`. -/
def returnZero : Prog := fun _ w => .exited 0 w

/-! ## `main` -/

/-- Lines 66-76: body of the probing loop of the `USE_CUDA_VMM` build. -/
def vmmProbeBody (i : Nat) : Prog :=
  block
    [ CUDACHECK 67 (.cudaSetDevice i)
    , callIgnored 68 .cudaFreeNull
    , CHECK_DRV 69 (.cuCtxGetCurrent i)
    , CHECK_DRV 70 (.cuCtxGetDevice i)
    , CHECK_DRV 71 (.cuDeviceGetAttribute i)
    , vmmGate ]

/-- Lines 59-85: the block compiled only when `USE_CUDA_VMM` is set. -/
def vmmSetup : Prog :=
  block
    [ forDev nDev vmmProbeBody
    , cuvectorCall 79 (.vectorCtor .sendbuff 0)
    , cuvectorCall 79 (.vectorCtor .sendbuff 1)
    , cuvectorCall 83 (.vectorCtor .recvbuff 0)
    , cuvectorCall 83 (.vectorCtor .recvbuff 1) ]

/-- Lines 90-98: obtaining the two device buffers of device `i`. -/
def allocBuffers (USE_CUDA_VMM : Bool) (i : Nat) : Prog :=
  if USE_CUDA_VMM then
    block
      [ cuvectorCall 91 (.vectorGrow .sendbuff i byteCount)
      , cuvectorCall 92 (.vectorGrow .recvbuff i byteCount)
      , cuvectorCall 93 (.vectorGetPointer .sendbuff i)
      , cuvectorCall 94 (.vectorGetPointer .recvbuff i) ]
  else
    block
      [ CUDACHECK 96 (.cudaMalloc .sendbuff i byteCount)
      , CUDACHECK 97 (.cudaMalloc .recvbuff i byteCount) ]

/-- Lines 87-102: body of the allocation loop. -/
def allocBody (USE_CUDA_VMM : Bool) (i : Nat) : Prog :=
  block
    [ CUDACHECK 88 (.cudaSetDevice i)
    , allocBuffers USE_CUDA_VMM i
    , CUDACHECK 99 (.cudaMemset .sendbuff i 1 byteCount)
    , CUDACHECK 100 (.cudaMemset .recvbuff i 0 byteCount)
    , CUDACHECK 101 (.cudaStreamCreate i) ]

/-- Lines 111-114: body of the all-reduce loop.  The statement spans lines
112-113; its call site is recorded under the line it starts on. -/
def allReduceBody (i : Nat) : Prog :=
  NCCLCHECK 112
    (.ncclAllReduce .sendbuff i .recvbuff i (toSizeT size) .ncclFloat .ncclSum i i)

/-- Lines 118-121: body of the synchronisation loop. -/
def syncBody (i : Nat) : Prog :=
  block
    [ CUDACHECK 119 (.cudaSetDevice i)
    , CUDACHECK 120 (.cudaStreamSynchronize i) ]

/-- Lines 125-129: body of the free loop of the default build. -/
def freeBody (i : Nat) : Prog :=
  block
    [ CUDACHECK 126 (.cudaSetDevice i)
    , CUDACHECK 127 (.cudaFree .sendbuff i)
    , CUDACHECK 128 (.cudaFree .recvbuff i) ]

/-- Lines 133-134: body of the communicator teardown loop. -/
def destroyBody (i : Nat) : Prog := callIgnored 134 (.ncclCommDestroy i)

/-- Lines 44-138: `main`, for either value of the compile-time flag. -/
def main (USE_CUDA_VMM : Bool) : Prog :=
  block
    [ if USE_CUDA_VMM then vmmSetup else skip
    , forDev nDev (allocBody USE_CUDA_VMM)
    , NCCLCHECK 106 (.ncclCommInitAll nDev devs)
    , NCCLCHECK 110 .ncclGroupStart
    , forDev nDev allReduceBody
    , NCCLCHECK 115 .ncclGroupEnd
    , forDev nDev syncBody
    , if USE_CUDA_VMM then skip else forDev nDev freeBody
    , forDev nDev destroyBody
    , printSuccess
    , returnZero ]

/-- A whole run of the process against an oracle. -/
def runMain (USE_CUDA_VMM : Bool) (o : Oracle) : Outcome := main USE_CUDA_VMM o World.init

/-! ## Listing of the call sites of `main`

The statements of `main` up to line 134 are call statements, each possibly
followed by the support test.  `script` lists their call sites in program
order; `execSteps` runs such a listing.  `main_eq_script` relates the two. -/

/-- Whether a call is the support probe that lines 72-75 test the result of. -/
def Call.isProbe : Call → Bool
  | .cuDeviceGetAttribute _ => true
  | _ => false

/-- The call statement at a site, by the wrapper around it. -/
def perform (s : Site) : Prog :=
  match s.check with
  | .cuda => CUDACHECK s.line s.call
  | .nccl => NCCLCHECK s.line s.call
  | .drv => CHECK_DRV s.line s.call
  | .ignored => callIgnored s.line s.call

/-- The call statement at a site, followed by the support test after a probe. -/
def execSite (s : Site) : Prog :=
  seq (perform s) (if s.call.isProbe then vmmGate else skip)

/-- Run a listing of call sites in order. -/
def execSteps (ss : List Site) : Prog := block (ss.map execSite)

/-- Call sites of one iteration of the probing loop (lines 67-71). -/
def probeSites (i : Nat) : List Site :=
  [ ⟨67, .cuda, .cudaSetDevice i⟩
  , ⟨68, .ignored, .cudaFreeNull⟩
  , ⟨69, .drv, .cuCtxGetCurrent i⟩
  , ⟨70, .drv, .cuCtxGetDevice i⟩
  , ⟨71, .drv, .cuDeviceGetAttribute i⟩ ]

/-- Call sites of lines 78-84. -/
def ctorSites : List Site :=
  [ ⟨79, .ignored, .vectorCtor .sendbuff 0⟩
  , ⟨79, .ignored, .vectorCtor .sendbuff 1⟩
  , ⟨83, .ignored, .vectorCtor .recvbuff 0⟩
  , ⟨83, .ignored, .vectorCtor .recvbuff 1⟩ ]

/-- Call sites of one iteration of the allocation loop (lines 88-101). -/
def allocSites (USE_CUDA_VMM : Bool) (i : Nat) : List Site :=
  [ (⟨88, .cuda, .cudaSetDevice i⟩ : Site) ] ++
  (if USE_CUDA_VMM then
    [ (⟨91, .ignored, .vectorGrow .sendbuff i byteCount⟩ : Site)
    , ⟨92, .ignored, .vectorGrow .recvbuff i byteCount⟩
    , ⟨93, .ignored, .vectorGetPointer .sendbuff i⟩
    , ⟨94, .ignored, .vectorGetPointer .recvbuff i⟩ ]
  else
    [ (⟨96, .cuda, .cudaMalloc .sendbuff i byteCount⟩ : Site)
    , ⟨97, .cuda, .cudaMalloc .recvbuff i byteCount⟩ ]) ++
  [ (⟨99, .cuda, .cudaMemset .sendbuff i 1 byteCount⟩ : Site)
  , ⟨100, .cuda, .cudaMemset .recvbuff i 0 byteCount⟩
  , ⟨101, .cuda, .cudaStreamCreate i⟩ ]

/-- Call sites of lines 106-115. -/
def ncclSites : List Site :=
  [ ⟨106, .nccl, .ncclCommInitAll nDev devs⟩
  , ⟨110, .nccl, .ncclGroupStart⟩
  , ⟨112, .nccl, .ncclAllReduce .sendbuff 0 .recvbuff 0 (toSizeT size) .ncclFloat .ncclSum 0 0⟩
  , ⟨112, .nccl, .ncclAllReduce .sendbuff 1 .recvbuff 1 (toSizeT size) .ncclFloat .ncclSum 1 1⟩
  , ⟨115, .nccl, .ncclGroupEnd⟩ ]

/-- Call sites of one iteration of the synchronisation loop (lines 119-120). -/
def syncSites (i : Nat) : List Site :=
  [ ⟨119, .cuda, .cudaSetDevice i⟩, ⟨120, .cuda, .cudaStreamSynchronize i⟩ ]

/-- Call sites of one iteration of the free loop (lines 126-128). -/
def freeSites (i : Nat) : List Site :=
  [ ⟨126, .cuda, .cudaSetDevice i⟩
  , ⟨127, .cuda, .cudaFree .sendbuff i⟩
  , ⟨128, .cuda, .cudaFree .recvbuff i⟩ ]

/-- Call sites of `main` in program order, up to line 134. -/
def script (USE_CUDA_VMM : Bool) : List Site :=
  (if USE_CUDA_VMM then probeSites 0 ++ probeSites 1 ++ ctorSites else []) ++
  allocSites USE_CUDA_VMM 0 ++ allocSites USE_CUDA_VMM 1 ++
  ncclSites ++
  syncSites 0 ++ syncSites 1 ++
  (if USE_CUDA_VMM then [] else freeSites 0 ++ freeSites 1) ++
  [ (⟨134, .ignored, .ncclCommDestroy 0⟩ : Site), ⟨134, .ignored, .ncclCommDestroy 1⟩ ]

/-! ## Observations on traces -/

/-- The event recorded when site `s` is the `n`-th call issued. -/
def eventAt (o : Oracle) (n : Nat) (s : Site) : Event :=
  ⟨s, (o n s.call).status, (o n s.call).stored⟩

/-- Whether a call is an error-string lookup of a checking wrapper. -/
def Call.isLookup : Call → Bool
  | .cudaGetErrorString _ => true
  | .ncclGetErrorString _ => true
  | .cuGetErrorString _ => true
  | _ => false

/-- The error-string lookup a wrapper makes for a failed call with status `st`. -/
def lookupSite (k : Check) (st : Nat) : Option Site :=
  match k with
  | .cuda => some ⟨14, .ignored, .cudaGetErrorString st⟩
  | .nccl => some ⟨24, .ignored, .ncclGetErrorString st⟩
  | .drv => some ⟨35, .ignored, .cuGetErrorString st⟩
  | .ignored => none

/-- The call sites of the lookups that follow an event: none after a success. -/
def lookupSites (e : Event) : List Site :=
  if e.status = statusSuccess then [] else (lookupSite e.site.check e.status).toList

/-- The events of one call statement issued at position `n`: the call, and the
error-string lookup of its wrapper if the call failed. -/
def emit (o : Oracle) (n : Nat) (s : Site) : List Event :=
  eventAt o n s ::
    (match lookupSites (eventAt o n s) with
     | [] => []
     | l :: _ => [eventAt o (n + 1) l])

/-- The events a listing of call sites produces when issued from position `n`. -/
def stamp (o : Oracle) : Nat → List Site → List Event
  | _, [] => []
  | n, s :: ss => emit o n s ++ stamp o (n + (emit o n s).length) ss

/-- The events of a list that are not error-string lookups. -/
def primary (es : List Event) : List Event :=
  es.filter (fun e => !e.site.call.isLookup)

/-- A call under `CUDACHECK` or `NCCLCHECK` that returned a non-success status. -/
def Event.failed (e : Event) : Bool := e.site.check.aborts && (e.status != statusSuccess)

/-- Value of `supportsVMM` after a list of events, from value `v` before. -/
def vmmAfter (v : Int) : List Event → Int
  | [] => v
  | e :: es => vmmAfter (storeVMM v e.site.call e.stored) es

/-- A probe after which `supportsVMM` is 0 (`v` is the value before it). -/
def Event.tripped (v : Int) (e : Event) : Bool :=
  e.site.call.isProbe && (storeVMM v e.site.call e.stored == 0)

/-- No event of the list stops the process (`v` is `supportsVMM` before it). -/
def passed (v : Int) : List Event → Bool
  | [] => true
  | e :: es => !e.failed && !e.tripped v && passed (storeVMM v e.site.call e.stored) es

/-- The diagnostic line an event causes, if any. -/
def Event.diag (e : Event) : List Output :=
  if e.status = statusSuccess then []
  else
    match e.site.check with
    | .cuda => [.cudaError e.site.line e.status]
    | .nccl => [.ncclError e.site.line e.status]
    | .drv => [.drvError e.site.line e.status]
    | .ignored => []

/-- The diagnostic lines a list of events causes. -/
def diags : List Event → List Output
  | [] => []
  | e :: es => e.diag ++ diags es

/-- The state after a list of events has been issued and reported. -/
def World.after (w : World) (es : List Event) : World :=
  { trace := w.trace ++ es
    out := w.out ++ diags es
    supportsVMM := vmmAfter w.supportsVMM es }

/-! ## Observations on runs -/

/-- Calls issued by a run, in order. -/
def Outcome.calls (r : Outcome) : List Call := r.world.trace.map (fun e => e.site.call)

/-- An oracle under which every call returns success. -/
def AllSucceed (o : Oracle) : Prop := ∀ n c, (o n c).status = statusSuccess

/-- An oracle under which every device reports support for virtual memory
management: each `cuDeviceGetAttribute` stores a non-zero value. -/
def ReportsVMM (o : Oracle) : Prop :=
  ∀ n i, ∃ x : Int, x ≠ 0 ∧ (o n (.cuDeviceGetAttribute i)).stored = some x

/-- The oracle that answers every call with success and stores 1. -/
def okOracle : Oracle := fun _ _ => ⟨statusSuccess, some 1⟩

/-- The size argument of a call agrees with the program constants: byte counts
of allocations, grows and memsets are `byteCount`; an all-reduce moves
`toSizeT size` elements of type `ncclFloat`. -/
def Call.sizeOk : Call → Bool
  | .cudaMalloc _ _ n => n == byteCount
  | .cudaMemset _ _ _ n => n == byteCount
  | .vectorGrow _ _ n => n == byteCount
  | .ncclAllReduce _ _ _ _ n dt _ _ _ => n == toSizeT size && dt == .ncclFloat
  | _ => true

/-- The calls named by the comparison of the two builds. -/
def Call.isShared : Call → Bool
  | .cudaMemset _ _ _ _ => true
  | .cudaStreamCreate _ => true
  | .ncclCommInitAll _ _ => true
  | .ncclGroupStart => true
  | .ncclAllReduce _ _ _ _ _ _ _ _ _ => true
  | .ncclGroupEnd => true
  | .cudaStreamSynchronize _ => true
  | .ncclCommDestroy _ => true
  | _ => false

/-- Calls into NCCL. -/
def Call.isNccl : Call → Bool
  | .ncclCommInitAll _ _ => true
  | .ncclGroupStart => true
  | .ncclAllReduce _ _ _ _ _ _ _ _ _ => true
  | .ncclGroupEnd => true
  | .ncclCommDestroy _ => true
  | .ncclGetErrorString _ => true
  | _ => false

/-- A fully successful run: every call issued returned success and `main`
returned 0 after printing the success line. -/
def FullySuccessful (r : Outcome) : Prop :=
  r.exitCode = some 0 ∧ Output.stdout successText ∈ r.world.out ∧
    ∀ e ∈ r.world.trace, e.status = statusSuccess

/-- The all-reduce issued for device index `i` at line 112. -/
def allReduceCall (i : Nat) : Call :=
  .ncclAllReduce .sendbuff i .recvbuff i (toSizeT size) .ncclFloat .ncclSum i i

/-- Diagnostics printed by `CUDACHECK` and `NCCLCHECK`. -/
def Output.isAbort : Output → Bool
  | .cudaError _ _ => true
  | .ncclError _ _ => true
  | _ => false

/-- Teardown calls: `cudaFree` of a send or receive buffer, `ncclCommDestroy`. -/
def Call.isTeardown : Call → Bool
  | .cudaFree _ _ => true
  | .ncclCommDestroy _ => true
  | _ => false

/-- The device index a device-scoped runtime call is made for. -/
def Call.device : Call → Option Nat
  | .cudaMalloc _ i _ => some i
  | .cudaMemset _ i _ _ => some i
  | .cudaStreamCreate i => some i
  | .cudaStreamSynchronize i => some i
  | .cudaFree _ i => some i
  | _ => none

/-- The active device after a list of events, from active device `cur`: the
argument of the most recent `cudaSetDevice` that returned success. -/
def activeDeviceFrom (cur : Option Nat) : List Event → Option Nat
  | [] => cur
  | e :: es =>
    match e.site.call with
    | .cudaSetDevice i =>
      if e.status = statusSuccess then activeDeviceFrom (some i) es
      else activeDeviceFrom cur es
    | _ => activeDeviceFrom cur es

/-- The active device after a trace that starts with no device selected. -/
def activeDevice (t : List Event) : Option Nat := activeDeviceFrom none t

/-- The argument of the last `cudaSetDevice` site of a listing. -/
def lastSetDeviceFrom (cur : Option Nat) : List Site → Option Nat
  | [] => cur
  | s :: ss =>
    match s.call with
    | .cudaSetDevice i => lastSetDeviceFrom (some i) ss
    | _ => lastSetDeviceFrom cur ss

/-- Whether a call is `cudaSetDevice`. -/
def Call.isSetDevice : Call → Bool
  | .cudaSetDevice _ => true
  | _ => false

/-- Check a property of every site of a listing against the sites before it. -/
def checkSplitsFrom (P : List Site → Site → Bool) : List Site → List Site → Bool
  | _, [] => true
  | pre, s :: post => P pre s && checkSplitsFrom P (pre ++ [s]) post

/-- Site of `ncclGroupEnd` (line 115). -/
def groupEndSite : Site := ⟨115, .nccl, .ncclGroupEnd⟩

/-- Site of `cudaStreamSynchronize(s[i])` (line 120). -/
def syncSite (i : Nat) : Site := ⟨120, .cuda, .cudaStreamSynchronize i⟩

/-- A teardown site comes after the group end and both synchronisations. -/
def teardownAfterSync (pre : List Site) (s : Site) : Bool :=
  !s.call.isTeardown ||
    (decide (groupEndSite ∈ pre) && decide (syncSite 0 ∈ pre) && decide (syncSite 1 ∈ pre))

/-- A device-scoped site comes after a `cudaSetDevice` of its device, and a
`cudaSetDevice` site is under an aborting check. -/
def deviceSelected (pre : List Site) (s : Site) : Bool :=
  (!s.call.isSetDevice || s.check.aborts) &&
    (match s.call.device with
     | some i => lastSetDeviceFrom none pre == some i
     | none => true)

/-- The values of `supportsVMM` right after each `cuDeviceGetAttribute` call of
a list of events (`v` is the value before the list). -/
def probeValues (v : Int) : List Event → List Int
  | [] => []
  | e :: es =>
    (if e.site.call.isProbe then [storeVMM v e.site.call e.stored] else []) ++
      probeValues (storeVMM v e.site.call e.stored) es

/-- Buffer grow or allocation, `cudaMemset`, `cudaStreamCreate` and NCCL calls. -/
def Call.isBufferWork : Call → Bool
  | .vectorCtor _ _ => true
  | .vectorGrow _ _ _ => true
  | .vectorGetPointer _ _ => true
  | .cudaMalloc _ _ _ => true
  | .cudaMemset _ _ _ _ => true
  | .cudaStreamCreate _ => true
  | c => c.isNccl

/-- A probe site is not under an aborting check, and no buffer work and no
site under `NCCLCHECK` comes before it. -/
def probeBeforeWork (pre : List Site) (s : Site) : Bool :=
  !s.call.isProbe ||
    (!s.check.aborts &&
      (pre ++ [s]).all (fun x => !x.call.isBufferWork && decide (x.check ≠ .nccl)))

/-- A probe site is under `CHECK_DRV`. -/
def probeIsDrv (_pre : List Site) (s : Site) : Bool :=
  !s.call.isProbe || decide (s.check = .drv)

/-- An oracle under which `cuDeviceGetAttribute` fails on the first device and
stores nothing. -/
def probeFailsOracle : Oracle := fun _ c =>
  if c = .cuDeviceGetAttribute 0 then ⟨1, none⟩ else ⟨statusSuccess, some 1⟩

/-- An oracle under which the second device reports no support. -/
def secondUnsupportedOracle : Oracle := fun _ c =>
  if c = .cuDeviceGetAttribute 1 then ⟨statusSuccess, some 0⟩ else ⟨statusSuccess, some 1⟩

/-! ## Basic facts about statements -/

theorem seq_assoc (p q r : Prog) : seq (seq p q) r = seq p (seq q r) := by
  funext o w
  simp only [seq]
  cases p o w <;> rfl

theorem skip_seq (p : Prog) : seq skip p = p := rfl

theorem seq_skip (p : Prog) : seq p skip = p := by
  funext o w
  simp only [seq, skip]
  cases p o w <;> rfl


theorem block_append (ps qs : List Prog) : block (ps ++ qs) = seq (block ps) (block qs) := by
  induction ps with
  | nil => rfl
  | cons p ps ih =>
    show seq p (block (ps ++ qs)) = seq (seq p (block ps)) (block qs)
    rw [ih, seq_assoc]

theorem execSteps_nil : execSteps [] = skip := rfl

theorem execSteps_cons (s : Site) (ss : List Site) :
    execSteps (s :: ss) = seq (execSite s) (execSteps ss) := rfl

theorem execSteps_append (a b : List Site) :
    execSteps (a ++ b) = seq (execSteps a) (execSteps b) := by
  simp only [execSteps, List.map_append, block_append]

theorem execSite_of_not_probe (s : Site) (h : s.call.isProbe = false) :
    execSite s = perform s := by
  simp only [execSite, h, seq_skip, Bool.false_eq_true, if_false]

theorem execSite_of_probe (s : Site) (h : s.call.isProbe = true) :
    execSite s = seq (perform s) vmmGate := by
  simp only [execSite, h, if_true]

theorem execSteps_one (s : Site) : execSteps [s] = execSite s := seq_skip _

theorem vmmProbeBody_eq (i : Nat) : vmmProbeBody i = execSteps (probeSites i) := by
  simp only [vmmProbeBody, probeSites, execSteps, List.map, block, execSite, Call.isProbe,
    seq_skip, seq_assoc, Bool.false_eq_true, if_false, if_true, perform]

theorem allocBody_eq (v : Bool) (i : Nat) : allocBody v i = execSteps (allocSites v i) := by
  cases v <;>
  simp only [allocBody, allocBuffers, allocSites, cuvectorCall, execSteps, List.map, block,
    execSite, Call.isProbe, seq_skip, seq_assoc, Bool.false_eq_true, if_false, if_true, perform,
    List.cons_append, List.nil_append]

theorem syncBody_eq (i : Nat) : syncBody i = execSteps (syncSites i) := by
  simp only [syncBody, syncSites, execSteps, List.map, block, execSite, Call.isProbe,
    seq_skip, Bool.false_eq_true, if_false, perform]

theorem freeBody_eq (i : Nat) : freeBody i = execSteps (freeSites i) := by
  simp only [freeBody, freeSites, execSteps, List.map, block, execSite, Call.isProbe,
    seq_skip, Bool.false_eq_true, if_false, perform]

theorem forDev_two (body : Nat → Prog) : forDev nDev body = seq (body 0) (body 1) := by
  show seq (body 0) (seq (body 1) skip) = seq (body 0) (body 1)
  rw [seq_skip]

theorem ncclPart_eq :
    block [NCCLCHECK 106 (.ncclCommInitAll nDev devs), NCCLCHECK 110 .ncclGroupStart,
      forDev nDev allReduceBody, NCCLCHECK 115 .ncclGroupEnd] = execSteps ncclSites := by
  simp only [forDev_two, allReduceBody, ncclSites, execSteps, List.map, block, execSite,
    Call.isProbe, seq_skip, seq_assoc, Bool.false_eq_true, if_false, perform]

theorem destroyPart_eq :
    forDev nDev destroyBody
      = execSteps [⟨134, .ignored, .ncclCommDestroy 0⟩, ⟨134, .ignored, .ncclCommDestroy 1⟩] := by
  simp only [forDev_two, destroyBody, execSteps, List.map, block, execSite,
    Call.isProbe, seq_skip, Bool.false_eq_true, if_false, perform]

theorem vmmSetup_eq : vmmSetup = execSteps (probeSites 0 ++ probeSites 1 ++ ctorSites) := by
  simp only [vmmSetup, block, forDev_two, vmmProbeBody_eq, execSteps_append, seq_assoc, seq_skip]
  simp only [ctorSites, cuvectorCall, execSteps, List.map, block, execSite,
    Call.isProbe, seq_skip, Bool.false_eq_true, if_false, perform]

/-- The text of `main` is its call-site listing followed by lines 136-137. -/
theorem main_eq_script (v : Bool) :
    main v = seq (execSteps (script v)) (seq printSuccess returnZero) := by
  have h : main v = seq (if v then vmmSetup else skip) (seq (forDev nDev (allocBody v))
      (seq (block [NCCLCHECK 106 (.ncclCommInitAll nDev devs), NCCLCHECK 110 .ncclGroupStart,
        forDev nDev allReduceBody, NCCLCHECK 115 .ncclGroupEnd])
      (seq (forDev nDev syncBody) (seq (if v then skip else forDev nDev freeBody)
      (seq (forDev nDev destroyBody) (seq printSuccess returnZero)))))) := by
    simp only [main, block, seq_skip, seq_assoc]
  rw [h, ncclPart_eq, destroyPart_eq]
  cases v
  · simp only [script, Bool.false_eq_true, if_false, forDev_two, allocBody_eq, syncBody_eq,
      freeBody_eq, execSteps_append, seq_assoc, skip_seq, List.nil_append]
  · simp only [script, if_true, forDev_two, allocBody_eq, syncBody_eq, vmmSetup_eq,
      execSteps_append, seq_assoc, skip_seq, seq_skip, execSteps_nil, List.append_nil]

/-! ## What a listing of call sites does -/

theorem execSite_eq (o : Oracle) (s : Site) (w : World) :
    execSite s o w =
      if (eventAt o w.trace.length s).failed then
        .exited EXIT_FAILURE (w.after (emit o w.trace.length s))
      else if (eventAt o w.trace.length s).tripped w.supportsVMM then
        .exited 0 ((w.after (emit o w.trace.length s)).print (.stderr notSupportedText))
      else .running (w.after (emit o w.trace.length s)) := by
  obtain ⟨l, k, c⟩ := s
  by_cases hs : (o w.trace.length c).status = 0 <;> cases k <;>
    by_cases hp : c.isProbe = true <;>
    by_cases hv : storeVMM w.supportsVMM c (o w.trace.length c).stored = 0 <;>
    simp [execSite, perform, CUDACHECK, NCCLCHECK, CHECK_DRV, callIgnored, vmmGate, skip, seq,
      eventAt, emit, lookupSites, lookupSite, Event.failed, Event.tripped, Check.aborts,
      World.after, World.issue, World.answer, World.print, diags, Event.diag, vmmAfter,
      storeVMM, statusSuccess, hs, hp, hv]

theorem stamp_append (o : Oracle) (a b : List Site) (n : Nat) :
    stamp o n (a ++ b) = stamp o n a ++ stamp o (n + (stamp o n a).length) b := by
  induction a generalizing n with
  | nil => simp [stamp]
  | cons s a ih => simp [stamp, ih, Nat.add_assoc]

theorem stamp_one (o : Oracle) (s : Site) (n : Nat) : stamp o n [s] = emit o n s := by
  simp [stamp]

theorem diags_append (a b : List Event) : diags (a ++ b) = diags a ++ diags b := by
  induction a with
  | nil => rfl
  | cons e a ih => simp [diags, ih]

theorem vmmAfter_append (v : Int) (a b : List Event) :
    vmmAfter v (a ++ b) = vmmAfter (vmmAfter v a) b := by
  induction a generalizing v with
  | nil => rfl
  | cons e a ih => simp [vmmAfter, ih]

theorem passed_append (v : Int) (a b : List Event) :
    passed v (a ++ b) = (passed v a && passed (vmmAfter v a) b) := by
  induction a generalizing v with
  | nil => simp [passed, vmmAfter]
  | cons e a ih => simp [passed, vmmAfter, ih, Bool.and_assoc]

theorem after_after (w : World) (a b : List Event) :
    (w.after a).after b = w.after (a ++ b) := by
  simp [World.after, diags_append, vmmAfter_append]

/-- The lookup that follows a failed call is itself neither failed nor a probe
and prints nothing. -/
theorem emit_cases (o : Oracle) (n : Nat) (s : Site) :
    emit o n s = [eventAt o n s] ∨
      ∃ l, lookupSites (eventAt o n s) = [l] ∧ emit o n s = [eventAt o n s, eventAt o (n + 1) l] ∧
        l.check = .ignored ∧ l.call.isLookup = true ∧ l.call.isProbe = false := by
  obtain ⟨ln, k, c⟩ := s
  by_cases hs : (o n c).status = statusSuccess
  · left
    simp [emit, lookupSites, eventAt, hs]
  · cases k
    · right
      exact ⟨⟨14, .ignored, .cudaGetErrorString (o n c).status⟩,
        by simp [lookupSites, eventAt, hs, lookupSite],
        by simp [emit, lookupSites, eventAt, hs, lookupSite], rfl, rfl, rfl⟩
    · right
      exact ⟨⟨24, .ignored, .ncclGetErrorString (o n c).status⟩,
        by simp [lookupSites, eventAt, hs, lookupSite],
        by simp [emit, lookupSites, eventAt, hs, lookupSite], rfl, rfl, rfl⟩
    · right
      exact ⟨⟨35, .ignored, .cuGetErrorString (o n c).status⟩,
        by simp [lookupSites, eventAt, hs, lookupSite],
        by simp [emit, lookupSites, eventAt, hs, lookupSite], rfl, rfl, rfl⟩
    · left
      simp [emit, lookupSites, eventAt, hs, lookupSite]

theorem emit_tail (o : Oracle) (n : Nat) (s : Site) :
    ∃ ls, emit o n s = eventAt o n s :: ls ∧
      ls.map Event.site = lookupSites (eventAt o n s) ∧
      (∀ x ∈ ls, x.site.check = .ignored ∧ x.site.call.isLookup = true) := by
  rcases emit_cases o n s with h | ⟨l, h1, h2, h3, h4, _⟩
  · refine ⟨[], h, ?_, by simp⟩
    have : lookupSites (eventAt o n s) = [] := by
      unfold emit at h
      cases hl : lookupSites (eventAt o n s) with
      | nil => rfl
      | cons l ls => simp [hl] at h
    simp [this]
  · refine ⟨[eventAt o (n + 1) l], h2, by rw [h1]; rfl, ?_⟩
    intro x hx
    simp only [List.mem_singleton] at hx
    subst hx
    exact ⟨h3, h4⟩

theorem vmmAfter_emit (o : Oracle) (n : Nat) (s : Site) (v : Int) :
    vmmAfter v (emit o n s) = storeVMM v s.call (eventAt o n s).stored := by
  rcases emit_cases o n s with h | ⟨l, _, h2, _, _, h5⟩
  · rw [h]; rfl
  · rw [h2]
    simp only [vmmAfter, eventAt]
    cases hc : l.call <;> simp [hc, Call.isProbe] at h5 <;> rfl

theorem passed_emit (o : Oracle) (n : Nat) (s : Site) (v : Int) :
    passed v (emit o n s)
      = (!(eventAt o n s).failed && !(eventAt o n s).tripped v) := by
  rcases emit_cases o n s with h | ⟨l, _, h2, h3, _, h5⟩
  · rw [h]; simp [passed]
  · rw [h2]
    simp [passed, Event.failed, Event.tripped, eventAt, h3, h5, Check.aborts]

theorem passed_stamp_cons (o : Oracle) (n : Nat) (s : Site) (ss : List Site) (v : Int) :
    passed v (stamp o n (s :: ss))
      = (!(eventAt o n s).failed && !(eventAt o n s).tripped v &&
          passed (storeVMM v s.call (eventAt o n s).stored)
            (stamp o (n + (emit o n s).length) ss)) := by
  simp only [stamp, passed_append, passed_emit, vmmAfter_emit]

/-- Outcome of a listing of call sites: either every call passes and control
falls through, or the run stops at the first call that fails under an aborting
check (status `EXIT_FAILURE`) or that is a probe leaving `supportsVMM` at 0
(status 0, after the message of line 73). -/
theorem execSteps_spec (o : Oracle) (ss : List Site) (w : World) :
    (execSteps ss o w = .running (w.after (stamp o w.trace.length ss)) ∧
      passed w.supportsVMM (stamp o w.trace.length ss) = true) ∨
    (∃ pre s post, ss = pre ++ s :: post ∧
      passed w.supportsVMM (stamp o w.trace.length pre) = true ∧
      (((eventAt o (w.trace.length + (stamp o w.trace.length pre).length) s).failed = true ∧
          execSteps ss o w
            = .exited EXIT_FAILURE (w.after (stamp o w.trace.length (pre ++ [s])))) ∨
       ((eventAt o (w.trace.length + (stamp o w.trace.length pre).length) s).failed = false ∧
          (eventAt o (w.trace.length + (stamp o w.trace.length pre).length) s).tripped
            (vmmAfter w.supportsVMM (stamp o w.trace.length pre)) = true ∧
          execSteps ss o w
            = .exited 0 ((w.after (stamp o w.trace.length (pre ++ [s]))).print
                (.stderr notSupportedText))))) := by
  induction ss generalizing w with
  | nil =>
    left
    simp [execSteps, block, skip, stamp, World.after, diags, vmmAfter, passed]
  | cons s ss ih =>
    rw [execSteps_cons]
    by_cases hf : (eventAt o w.trace.length s).failed = true
    · right
      refine ⟨[], s, ss, rfl, rfl, Or.inl ⟨by simpa [stamp] using hf, ?_⟩⟩
      simp [seq, execSite_eq, hf, stamp]
    · by_cases ht : (eventAt o w.trace.length s).tripped w.supportsVMM = true
      · right
        refine ⟨[], s, ss, rfl, rfl,
          Or.inr ⟨by simpa [stamp] using hf, by simpa [stamp, vmmAfter] using ht, ?_⟩⟩
        simp [seq, execSite_eq, hf, ht, stamp]
      · have hstep : seq (execSite s) (execSteps ss) o w
            = execSteps ss o (w.after (emit o w.trace.length s)) := by
          simp [seq, execSite_eq, hf, ht]
        have hlen : (w.after (emit o w.trace.length s)).trace.length
            = w.trace.length + (emit o w.trace.length s).length := by
          simp [World.after]
        have hv : (w.after (emit o w.trace.length s)).supportsVMM
            = storeVMM w.supportsVMM s.call (eventAt o w.trace.length s).stored := by
          simp [World.after, vmmAfter_emit]
        simp only [Bool.not_eq_true] at hf ht
        rw [hstep]
        rcases ih (w.after (emit o w.trace.length s)) with
          ⟨h1, h2⟩ | ⟨pre, s1, post, h1, h2, h3⟩
        · left
          rw [hlen] at h1 h2
          rw [hv] at h2
          refine ⟨by rw [h1, after_after]; rfl, ?_⟩
          rw [passed_stamp_cons, hf, ht, h2]
          rfl
        · right
          rw [hlen] at h2 h3
          rw [hv] at h2 h3
          refine ⟨s :: pre, s1, post, by rw [h1]; rfl, ?_, ?_⟩
          · rw [passed_stamp_cons, hf, ht, h2]
            rfl
          · have hidx : w.trace.length + (stamp o w.trace.length (s :: pre)).length
                = w.trace.length + (emit o w.trace.length s).length
                  + (stamp o (w.trace.length + (emit o w.trace.length s).length) pre).length := by
              simp [stamp, Nat.add_assoc]
            have hvm : vmmAfter w.supportsVMM (stamp o w.trace.length (s :: pre))
                = vmmAfter (storeVMM w.supportsVMM s.call (eventAt o w.trace.length s).stored)
                    (stamp o (w.trace.length + (emit o w.trace.length s).length) pre) := by
              simp [stamp, vmmAfter_append, vmmAfter_emit]
            have hst : ∀ x, stamp o w.trace.length (s :: x)
                = emit o w.trace.length s
                  ++ stamp o (w.trace.length + (emit o w.trace.length s).length) x := fun _ => rfl
            rw [hidx, hvm]
            rcases h3 with ⟨h4, h5⟩ | ⟨h4, h5, h6⟩
            · left
              refine ⟨h4, ?_⟩
              rw [h5, after_after, List.cons_append, hst]
            · right
              refine ⟨h4, h5, ?_⟩
              rw [h6, after_after, List.cons_append, hst]

/-! ## The three ways a run of `main` ends -/

theorem init_after (es : List Event) :
    World.init.after es = ⟨es, diags es, vmmAfter 0 es⟩ := by
  simp [World.init, World.after]

/-- A run of `main` either issues every call of the listing and returns 0 after
printing the success line, or stops at the first failing call under an aborting
check with `EXIT_FAILURE`, or stops at a probe that leaves `supportsVMM` at 0
and returns 0 after the message of line 73. -/
theorem runMain_cases (v : Bool) (o : Oracle) :
    (passed 0 (stamp o 0 (script v)) = true ∧
      runMain v o = .exited 0 ⟨stamp o 0 (script v),
        diags (stamp o 0 (script v)) ++ [.stdout successText],
        vmmAfter 0 (stamp o 0 (script v))⟩) ∨
    (∃ pre s post, script v = pre ++ s :: post ∧ passed 0 (stamp o 0 pre) = true ∧
      (((eventAt o (stamp o 0 pre).length s).failed = true ∧
          runMain v o = .exited EXIT_FAILURE ⟨stamp o 0 (pre ++ [s]),
            diags (stamp o 0 (pre ++ [s])), vmmAfter 0 (stamp o 0 (pre ++ [s]))⟩) ∨
       ((eventAt o (stamp o 0 pre).length s).failed = false ∧
          (eventAt o (stamp o 0 pre).length s).tripped (vmmAfter 0 (stamp o 0 pre)) = true ∧
          runMain v o = .exited 0 ⟨stamp o 0 (pre ++ [s]),
            diags (stamp o 0 (pre ++ [s])) ++ [.stderr notSupportedText],
            vmmAfter 0 (stamp o 0 (pre ++ [s]))⟩))) := by
  have hinit : World.init.trace.length = 0 := rfl
  have hv0 : World.init.supportsVMM = 0 := rfl
  rcases execSteps_spec o (script v) World.init with ⟨h1, h2⟩ | ⟨pre, s, post, h1, h2, h3⟩
  · left
    rw [hinit] at h1 h2
    rw [hv0] at h2
    refine ⟨h2, ?_⟩
    simp [runMain, main_eq_script, seq, h1, printSuccess, returnZero, init_after, World.print]
  · right
    rw [hinit] at h2 h3
    rw [hv0] at h2 h3
    simp only [Nat.zero_add] at h3
    refine ⟨pre, s, post, h1, h2, ?_⟩
    rcases h3 with ⟨h4, h5⟩ | ⟨h4, h5, h6⟩
    · left
      refine ⟨h4, ?_⟩
      simp [runMain, main_eq_script, seq, h5, init_after]
    · right
      refine ⟨h4, h5, ?_⟩
      simp [runMain, main_eq_script, seq, h6, init_after, World.print]

/-- Every run ends: `main` always reaches an `exit` or a `return`. -/
theorem runMain_exits (v : Bool) (o : Oracle) : ∃ c w, runMain v o = .exited c w := by
  rcases runMain_cases v o with ⟨_, h2⟩ | ⟨pre, s, post, _, _, h3⟩
  · exact ⟨_, _, h2⟩
  · rcases h3 with ⟨_, h5⟩ | ⟨_, _, h6⟩
    · exact ⟨_, _, h5⟩
    · exact ⟨_, _, h6⟩

/-! ## Structure of the events of a listing -/

theorem script_no_lookup (v : Bool) : ∀ s ∈ script v, s.call.isLookup = false := by
  cases v <;> decide

theorem primary_append (a b : List Event) : primary (a ++ b) = primary a ++ primary b := by
  simp [primary]

theorem primary_lookups (ls : List Event) (h : ∀ x ∈ ls, x.site.call.isLookup = true) :
    primary ls = [] := by
  simp only [primary, List.filter_eq_nil_iff]
  intro x hx
  simp [h x hx]

theorem primary_emit (o : Oracle) (n : Nat) (s : Site) (h : s.call.isLookup = false) :
    primary (emit o n s) = [eventAt o n s] := by
  obtain ⟨ls, h1, _, h3⟩ := emit_tail o n s
  rw [h1]
  have : primary (eventAt o n s :: ls) = primary [eventAt o n s] ++ primary ls :=
    primary_append [eventAt o n s] ls
  rw [this, primary_lookups ls (fun x hx => (h3 x hx).2)]
  simp [primary, eventAt, h]

theorem primary_stamp (o : Oracle) (ss : List Site) (n : Nat)
    (h : ∀ s ∈ ss, s.call.isLookup = false) :
    (primary (stamp o n ss)).map Event.site = ss := by
  induction ss generalizing n with
  | nil => rfl
  | cons s ss ih =>
    have hs := h s (List.mem_cons_self _ _)
    have ht : ∀ x ∈ ss, x.call.isLookup = false := fun x hx => h x (List.mem_cons_of_mem _ hx)
    simp only [stamp, primary_append, primary_emit o n s hs, List.map_append, ih _ ht]
    rfl

/-- An event of a listing is a call of the listing or the lookup made for a
failed call of the listing. -/
theorem mem_stamp (o : Oracle) (ss : List Site) (n : Nat) (x : Event)
    (h : x ∈ stamp o n ss) :
    x.site ∈ ss ∨ ∃ g ∈ stamp o n ss, g.site ∈ ss ∧ x.site ∈ lookupSites g := by
  induction ss generalizing n with
  | nil => simp [stamp] at h
  | cons s ss ih =>
    simp only [stamp, List.mem_append] at h
    rcases h with h | h
    · obtain ⟨ls, h1, h2, _⟩ := emit_tail o n s
      rw [h1, List.mem_cons] at h
      rcases h with h | h
      · left
        rw [h]
        exact List.mem_cons_self _ _
      · right
        refine ⟨eventAt o n s, ?_, List.mem_cons_self _ _, ?_⟩
        · simp [stamp, h1]
        · rw [← h2]
          exact List.mem_map_of_mem _ h
    · rcases ih _ h with h1 | ⟨g, hg, hgs, hx⟩
      · exact Or.inl (List.mem_cons_of_mem _ h1)
      · right
        refine ⟨g, ?_, List.mem_cons_of_mem _ hgs, hx⟩
        simp only [stamp, List.mem_append]
        exact Or.inr hg

theorem diags_lookups (ls : List Event) (h : ∀ x ∈ ls, x.site.check = .ignored) :
    diags ls = [] := by
  induction ls with
  | nil => rfl
  | cons x ls ih =>
    have hx := h x (List.mem_cons_self _ _)
    simp [diags, Event.diag, hx, ih (fun y hy => h y (List.mem_cons_of_mem _ hy))]

/-! ## Shape of every run -/

/-- Trace, output and exit status of a run, in the three cases of
`runMain_cases`.  The trace is the events of an initial part of the listing;
when the run stops early, it stops at a call `e` of the listing, followed only
by the error-string lookup made for it. -/
theorem run_shape (v : Bool) (o : Oracle) :
    ∃ done post, script v = done ++ post ∧ (runMain v o).world.trace = stamp o 0 done ∧
      ((post = [] ∧ passed 0 (runMain v o).world.trace = true ∧
          (runMain v o).exitCode = some 0 ∧
          (runMain v o).world.out
            = diags (runMain v o).world.trace ++ [.stdout successText]) ∨
       (∃ t e ls, (runMain v o).world.trace = t ++ e :: ls ∧ passed 0 t = true ∧
          ls.map Event.site = lookupSites e ∧
          (∀ x ∈ ls, x.site.check = .ignored ∧ x.site.call.isLookup = true) ∧
          e.site ∈ script v ∧
          e.failed = true ∧ (runMain v o).exitCode = some EXIT_FAILURE ∧
          (runMain v o).world.out = diags t ++ e.diag) ∨
       (∃ t e ls, (runMain v o).world.trace = t ++ e :: ls ∧ passed 0 t = true ∧
          ls.map Event.site = lookupSites e ∧
          (∀ x ∈ ls, x.site.check = .ignored ∧ x.site.call.isLookup = true) ∧
          e.site ∈ script v ∧
          e.failed = false ∧ e.tripped (vmmAfter 0 t) = true ∧
          (runMain v o).exitCode = some 0 ∧
          (runMain v o).world.out = diags t ++ e.diag ++ [.stderr notSupportedText])) := by
  rcases runMain_cases v o with ⟨h1, h2⟩ | ⟨pre, s, post, h1, h2, h3⟩
  · refine ⟨script v, [], by simp, by rw [h2]; rfl, Or.inl ?_⟩
    simp [h2, Outcome.world, Outcome.exitCode, h1]
  · have hone : stamp o 0 (pre ++ [s])
        = stamp o 0 pre ++ emit o (stamp o 0 pre).length s := by
      rw [stamp_append, stamp_one, Nat.zero_add]
    obtain ⟨ls, hl1, hl2, hl3⟩ := emit_tail o (stamp o 0 pre).length s
    have hmem : (eventAt o (stamp o 0 pre).length s).site ∈ script v := by
      rw [h1]; simp [eventAt]
    have hd : diags (stamp o 0 (pre ++ [s]))
        = diags (stamp o 0 pre) ++ (eventAt o (stamp o 0 pre).length s).diag := by
      rw [hone, hl1, diags_append]
      simp [diags, diags_lookups ls (fun x hx => (hl3 x hx).1)]
    rcases h3 with ⟨h4, h5⟩ | ⟨h4, h5, h6⟩
    · refine ⟨pre ++ [s], post, by simp [h1], by rw [h5]; rfl,
        Or.inr (Or.inl ⟨stamp o 0 pre, eventAt o (stamp o 0 pre).length s, ls, ?_⟩)⟩
      refine ⟨by rw [h5]; simp [Outcome.world, hone, hl1], h2, hl2, hl3, hmem, h4,
        by rw [h5]; rfl, by rw [h5]; simp [Outcome.world, hd]⟩
    · refine ⟨pre ++ [s], post, by simp [h1], by rw [h6]; rfl,
        Or.inr (Or.inr ⟨stamp o 0 pre, eventAt o (stamp o 0 pre).length s, ls, ?_⟩)⟩
      refine ⟨by rw [h6]; simp [Outcome.world, hone, hl1], h2, hl2, hl3, hmem, h4, h5,
        by rw [h6]; rfl, by rw [h6]; simp [Outcome.world, hd]⟩

theorem passed_left (v : Int) (a b : List Event) (h : passed v (a ++ b) = true) :
    passed v a = true := by
  rw [passed_append] at h
  simp only [Bool.and_eq_true] at h
  exact h.1

theorem passed_head (v : Int) (e : Event) (es : List Event) (h : passed v (e :: es) = true) :
    e.failed = false ∧ e.tripped v = false := by
  simp only [passed, Bool.and_eq_true, Bool.not_eq_true'] at h
  exact ⟨h.1.1, h.1.2⟩

theorem passed_mid (v : Int) (t : List Event) (e : Event) (rest : List Event)
    (h : passed v (t ++ e :: rest) = true) :
    passed v t = true ∧ e.failed = false ∧ e.tripped (vmmAfter v t) = false := by
  rw [passed_append] at h
  simp only [Bool.and_eq_true] at h
  exact ⟨h.1, passed_head _ _ _ h.2⟩

/-- If a list ends with `e1` followed by lookups only, a non-lookup element of
it lies at or before `e1`. -/
theorem split_before {α : Type} (Q : α → Prop) (t1 : List α) (e1 : α) (ls t : List α) (e : α)
    (rest : List α) (h : t1 ++ e1 :: ls = t ++ e :: rest) (hls : ∀ x ∈ ls, Q x)
    (he : ¬ Q e) : (t = t1 ∧ e = e1) ∨ ∃ r, t1 = t ++ e :: r := by
  induction t generalizing t1 with
  | nil =>
    cases t1 with
    | nil =>
      simp only [List.nil_append, List.cons.injEq] at h
      exact Or.inl ⟨rfl, h.1.symm⟩
    | cons y t1 =>
      simp only [List.cons_append, List.nil_append, List.cons.injEq] at h
      exact Or.inr ⟨t1, by rw [h.1]; rfl⟩
  | cons y t ih =>
    cases t1 with
    | nil =>
      simp only [List.nil_append, List.cons_append, List.cons.injEq] at h
      exfalso
      apply he
      apply hls
      rw [h.2]
      simp
    | cons z t1 =>
      simp only [List.cons_append, List.cons.injEq] at h
      rcases ih t1 h.2 with ⟨h1, h2⟩ | ⟨r, hr⟩
      · exact Or.inl ⟨by rw [h1, h.1], h2⟩
      · exact Or.inr ⟨r, by rw [hr, h.1]; rfl⟩

/-- The calls before a call of the listing all passed. -/
theorem passed_before (v : Bool) (o : Oracle) (t : List Event) (e : Event) (rest : List Event)
    (h : (runMain v o).world.trace = t ++ e :: rest) (he : e.site.call.isLookup = false) :
    passed 0 t = true := by
  obtain ⟨done, post, _, _, hc⟩ := run_shape v o
  have hq : ¬ (e.site.call.isLookup = true) := by simp [he]
  rcases hc with ⟨_, hp, _⟩ | ⟨t1, e1, ls, ht, hp, _, hl, _⟩ | ⟨t1, e1, ls, ht, hp, _, hl, _⟩
  · rw [h] at hp
    exact passed_left _ _ _ hp
  · rw [h] at ht
    rcases split_before (fun x => x.site.call.isLookup = true) t1 e1 ls t e rest ht.symm
      (fun x hx => (hl x hx).2) hq with ⟨h1, _⟩ | ⟨r, hr⟩
    · rw [h1]; exact hp
    · rw [hr] at hp; exact passed_left _ _ _ hp
  · rw [h] at ht
    rcases split_before (fun x => x.site.call.isLookup = true) t1 e1 ls t e rest ht.symm
      (fun x hx => (hl x hx).2) hq with ⟨h1, _⟩ | ⟨r, hr⟩
    · rw [h1]; exact hp
    · rw [hr] at hp; exact passed_left _ _ _ hp

/-- A call of the trace that is not a lookup sits at its place in the listing:
the calls of the listing before it are those of the trace before it. -/
theorem script_split (v : Bool) (o : Oracle) (t : List Event) (e : Event) (rest : List Event)
    (h : (runMain v o).world.trace = t ++ e :: rest) (he : e.site.call.isLookup = false) :
    ∃ post, script v = (primary t).map Event.site ++ e.site :: post := by
  obtain ⟨done, post, hs, ht, _⟩ := run_shape v o
  have hdone : ∀ s ∈ done, s.call.isLookup = false := by
    intro s hsd
    apply script_no_lookup v
    rw [hs]
    exact List.mem_append_left _ hsd
  have hp := primary_stamp o done 0 hdone
  rw [← ht, h] at hp
  have hpe : primary (t ++ e :: rest) = primary t ++ e :: primary rest := by
    rw [primary_append]
    simp [primary, he]
  rw [hpe] at hp
  refine ⟨(primary rest).map Event.site ++ post, ?_⟩
  rw [hs, ← hp]
  simp

theorem site_mem_script (v : Bool) (o : Oracle) (e : Event)
    (h : e ∈ (runMain v o).world.trace) (he : e.site.call.isLookup = false) :
    e.site ∈ script v := by
  obtain ⟨t, rest, ht⟩ := List.append_of_mem h
  obtain ⟨post, hs⟩ := script_split v o t e rest ht he
  rw [hs]
  simp

/-! ## Runs in which every call succeeds -/

theorem script_false_no_probe : ∀ s ∈ script false, s.call.isProbe = false := by
  decide

theorem emit_of_success (o : Oracle) (n : Nat) (s : Site)
    (h : (o n s.call).status = statusSuccess) : emit o n s = [eventAt o n s] := by
  simp [emit, lookupSites, eventAt, h]

theorem stamp_sites_of_success (o : Oracle) (ss : List Site) (n : Nat)
    (h : ∀ x ∈ stamp o n ss, x.status = statusSuccess) :
    (stamp o n ss).map Event.site = ss := by
  induction ss generalizing n with
  | nil => rfl
  | cons s ss ih =>
    have hs : (o n s.call).status = statusSuccess := by
      obtain ⟨ls, h1, _⟩ := emit_tail o n s
      exact h (eventAt o n s) (by simp [stamp, h1])
    have hrest : ∀ x ∈ stamp o (n + 1) ss, x.status = statusSuccess := by
      intro x hx
      apply h
      simp only [stamp, emit_of_success o n s hs, List.mem_append]
      exact Or.inr hx
    simp only [stamp, emit_of_success o n s hs, List.singleton_append, List.map_cons,
      List.length_singleton, ih _ hrest]
    rfl

theorem status_stamp_of_allSucceed (o : Oracle) (h : AllSucceed o) (ss : List Site) (n : Nat) :
    ∀ x ∈ stamp o n ss, x.status = statusSuccess := by
  induction ss generalizing n with
  | nil => intro x hx; simp [stamp] at hx
  | cons s ss ih =>
    intro x hx
    simp only [stamp, emit_of_success o n s (h n s.call), List.mem_append,
      List.mem_singleton] at hx
    rcases hx with hx | hx
    · rw [hx]; exact h n s.call
    · exact ih _ x hx

theorem diags_of_success (es : List Event) (h : ∀ x ∈ es, x.status = statusSuccess) :
    diags es = [] := by
  induction es with
  | nil => rfl
  | cons e es ih =>
    simp [diags, Event.diag, h e (List.mem_cons_self _ _),
      ih (fun y hy => h y (List.mem_cons_of_mem _ hy))]

theorem diags_stamp_of_allSucceed (o : Oracle) (h : AllSucceed o) (ss : List Site) (n : Nat) :
    diags (stamp o n ss) = [] :=
  diags_of_success _ (status_stamp_of_allSucceed o h ss n)

theorem failed_eventAt_of_allSucceed (o : Oracle) (h : AllSucceed o) (n : Nat) (s : Site) :
    (eventAt o n s).failed = false := by
  simp [Event.failed, eventAt, h n s.call]

theorem tripped_eventAt_of_reports (o : Oracle) (h : ReportsVMM o) (n : Nat) (s : Site) (v : Int) :
    (eventAt o n s).tripped v = false := by
  obtain ⟨l, k, c⟩ := s
  cases c <;> simp [Event.tripped, eventAt, Call.isProbe, storeVMM]
  rename_i i
  obtain ⟨x, hx, hst⟩ := h n i
  simp [hst, hx]

theorem tripped_eventAt_of_not_probe (o : Oracle) (n : Nat) (s : Site) (v : Int)
    (h : s.call.isProbe = false) : (eventAt o n s).tripped v = false := by
  simp [Event.tripped, eventAt, h]

/-- When every call succeeds (and, in the `USE_CUDA_VMM` build, every device
reports support), the run issues the whole listing, prints only the success
line and returns 0. -/
theorem runMain_of_allSucceed (v : Bool) (o : Oracle) (h : AllSucceed o)
    (hv : v = true → ReportsVMM o) :
    runMain v o = .exited 0 ⟨stamp o 0 (script v), [.stdout successText],
      vmmAfter 0 (stamp o 0 (script v))⟩ := by
  rcases runMain_cases v o with ⟨_, h2⟩ | ⟨pre, s, post, h1, _, h3⟩
  · rw [h2, diags_stamp_of_allSucceed o h]; rfl
  · exfalso
    rcases h3 with ⟨h4, _⟩ | ⟨_, h5, _⟩
    · rw [failed_eventAt_of_allSucceed o h] at h4
      exact Bool.false_ne_true h4
    · cases v
      · have hs : s ∈ script false := by rw [h1]; simp
        rw [tripped_eventAt_of_not_probe o _ s _ (script_false_no_probe s hs)] at h5
        exact Bool.false_ne_true h5
      · rw [tripped_eventAt_of_reports o (hv rfl)] at h5
        exact Bool.false_ne_true h5

theorem calls_of_allSucceed (v : Bool) (o : Oracle) (h : AllSucceed o)
    (hv : v = true → ReportsVMM o) :
    (runMain v o).calls = (script v).map Site.call := by
  rw [runMain_of_allSucceed v o h hv]
  have hmap : ∀ es : List Event,
      es.map (fun e => e.site.call) = (es.map Event.site).map Site.call := by
    intro es
    rw [List.map_map]
    rfl
  simp only [Outcome.calls, Outcome.world]
  rw [hmap, stamp_sites_of_success o _ 0 (status_stamp_of_allSucceed o h _ 0)]

theorem okOracle_allSucceed : AllSucceed okOracle := fun _ _ => rfl

theorem okOracle_reportsVMM : ReportsVMM okOracle := fun _ _ => ⟨1, by decide, rfl⟩

/-! ## Claims -/

theorem script_sizeOk (v : Bool) : ∀ s ∈ script v, s.call.sizeOk = true := by
  cases v <;> decide

theorem size_eq : size = 33554432 := by decide

theorem byteCount_eq : byteCount = 134217728 := by decide

/-- C9: the element count `size = 32*1024*1024 = 33554432` is computed without
`int` overflow, the byte count `size * sizeof(float)` equals 134217728 without
wrap-around, and in every run of either build every allocation, grow and memset
uses that byte count while every all-reduce passes 33554432 elements of type
`ncclFloat`, whose extent is exactly the byte count. -/
theorem C9_buffer_sizes_exact :
    size = 32 * 1024 * 1024 ∧ size = 33554432 ∧ -(2 : Int) ^ 31 ≤ size ∧ size < 2 ^ 31 ∧
    sizeofFloat = 4 ∧ byteCount = 134217728 ∧ (byteCount : Int) = size * 4 ∧
    (∀ (v : Bool) (o : Oracle) (c : Call), c ∈ (runMain v o).calls →
      (∀ b i n, c = .cudaMalloc b i n → n = 134217728) ∧
      (∀ b i x n, c = .cudaMemset b i x n → n = 134217728) ∧
      (∀ b i n, c = .vectorGrow b i n → n = 134217728) ∧
      (∀ sb si rb ri n dt op cm st, c = .ncclAllReduce sb si rb ri n dt op cm st →
        n = 33554432 ∧ dt = .ncclFloat ∧ ncclTypeSize dt * n = 134217728 ∧
        4 * n = byteCount)) := by
  refine ⟨by decide, size_eq, by decide, by decide, rfl, byteCount_eq, by decide, ?_⟩
  intro v o c hc
  obtain ⟨e, he, rfl⟩ := List.mem_map.mp hc
  have hok : e.site.call.isLookup = false → e.site.call.sizeOk = true :=
    fun hl => script_sizeOk v e.site (site_mem_script v o e he hl)
  have hsz : toSizeT size = 33554432 := by decide
  refine ⟨?_, ?_, ?_, ?_⟩
  · intro b i n h
    have hok := hok (by rw [h]; rfl)
    rw [h] at hok
    simpa [Call.sizeOk, byteCount_eq] using hok
  · intro b i x n h
    have hok := hok (by rw [h]; rfl)
    rw [h] at hok
    simpa [Call.sizeOk, byteCount_eq] using hok
  · intro b i n h
    have hok := hok (by rw [h]; rfl)
    rw [h] at hok
    simpa [Call.sizeOk, byteCount_eq] using hok
  · intro sb si rb ri n dt op cm st h
    have hok := hok (by rw [h]; rfl)
    rw [h] at hok
    simp only [Call.sizeOk, Bool.and_eq_true, beq_iff_eq, hsz] at hok
    obtain ⟨h1, h2⟩ := hok
    subst h1 h2
    exact ⟨rfl, rfl, rfl, by rw [byteCount_eq]⟩

/-- C2: in the default build, under every oracle whose calls all return
success, `main` runs through all 29 calls of its listing, prints exactly the
line "Success \n" (its only and last output) and returns exit status 0. -/
theorem C2_default_success (o : Oracle) (h : AllSucceed o) :
    (runMain false o).exitCode = some 0 ∧
    (runMain false o).world.out = [.stdout "Success \n"] ∧
    (runMain false o).world.out.getLast? = some (.stdout "Success \n") ∧
    (runMain false o).calls = (script false).map Site.call ∧
    (runMain false o).calls.length = 29 := by
  have hc := calls_of_allSucceed false o h (fun hf => absurd hf (by decide))
  refine ⟨?_, ?_, ?_, hc, ?_⟩
  · rw [runMain_of_allSucceed false o h (fun hf => absurd hf (by decide))]; rfl
  · rw [runMain_of_allSucceed false o h (fun hf => absurd hf (by decide))]; rfl
  · rw [runMain_of_allSucceed false o h (fun hf => absurd hf (by decide))]; rfl
  · rw [hc]; rfl

/-- Instance of C2 at the oracle answering every call with success. -/
theorem C2_default_success_witness :
    AllSucceed okOracle ∧ (runMain false okOracle).exitCode = some 0 ∧
      (runMain false okOracle).world.out = [.stdout "Success \n"] :=
  ⟨fun _ _ => rfl,
    (C2_default_success okOracle (fun _ _ => rfl)).1,
    (C2_default_success okOracle (fun _ _ => rfl)).2.1⟩

theorem mem_diag (e : Event) (x : Output) (h : x ∈ e.diag) :
    e.status ≠ statusSuccess ∧
      ((e.site.check = .cuda ∧ x = .cudaError e.site.line e.status) ∨
       (e.site.check = .nccl ∧ x = .ncclError e.site.line e.status) ∨
       (e.site.check = .drv ∧ x = .drvError e.site.line e.status)) := by
  unfold Event.diag at h
  by_cases hs : e.status = statusSuccess
  · simp [hs] at h
  · refine ⟨hs, ?_⟩
    rw [if_neg hs] at h
    cases hk : e.site.check <;> simp [hk] at h <;> simp [h]

theorem mem_diags (es : List Event) (x : Output) (h : x ∈ diags es) :
    ∃ e ∈ es, x ∈ e.diag := by
  induction es with
  | nil => simp [diags] at h
  | cons e es ih =>
    simp only [diags, List.mem_append] at h
    rcases h with h | h
    · exact ⟨e, List.mem_cons_self _ _, h⟩
    · obtain ⟨e1, h1, h2⟩ := ih h
      exact ⟨e1, List.mem_cons_of_mem _ h1, h2⟩

theorem stdout_not_mem_diag (e : Event) (s : String) : Output.stdout s ∉ e.diag := by
  intro h
  obtain ⟨_, h1 | h1 | h1⟩ := mem_diag e _ h <;> simp at h1

theorem stdout_not_mem_diags (es : List Event) (s : String) : Output.stdout s ∉ diags es := by
  intro h
  obtain ⟨e, _, h2⟩ := mem_diags es _ h
  exact stdout_not_mem_diag e s h2

/-- A run that printed the success line issued the whole listing, and every
call of it passed. -/
theorem completed_of_success (v : Bool) (o : Oracle)
    (h : Output.stdout successText ∈ (runMain v o).world.out) :
    (runMain v o).world.trace = stamp o 0 (script v) ∧
      passed 0 (runMain v o).world.trace = true ∧ (runMain v o).exitCode = some 0 ∧
      (runMain v o).world.out = diags (runMain v o).world.trace ++ [.stdout successText] := by
  obtain ⟨done, post, hs, ht, hc⟩ := run_shape v o
  rcases hc with ⟨hp, h1, h2, h3⟩ | ⟨t, e, ls, _, _, _, _, _, _, _, ho⟩ |
    ⟨t, e, ls, _, _, _, _, _, _, _, _, ho⟩
  · rw [hp, List.append_nil] at hs
    rw [hs]
    exact ⟨ht, h1, h2, h3⟩
  · exfalso
    rw [ho, List.mem_append] at h
    rcases h with h | h
    · exact stdout_not_mem_diags _ _ h
    · exact stdout_not_mem_diag _ _ h
  · exfalso
    rw [ho] at h
    simp only [List.mem_append, List.mem_singleton] at h
    rcases h with (h | h) | h
    · exact stdout_not_mem_diags _ _ h
    · exact stdout_not_mem_diag _ _ h
    · exact Output.noConfusion h

/-- The calls of a fully successful run are the calls of the listing. -/
theorem calls_of_fullySuccessful (v : Bool) (o : Oracle) (h : FullySuccessful (runMain v o)) :
    (runMain v o).calls = (script v).map Site.call := by
  have ht := (completed_of_success v o h.2.1).1
  have hst := h.2.2
  rw [ht] at hst
  have hmap : ∀ es : List Event,
      es.map (fun e => e.site.call) = (es.map Event.site).map Site.call := by
    intro es
    rw [List.map_map]
    rfl
  simp only [Outcome.calls]
  rw [ht, hmap, stamp_sites_of_success o _ 0 hst]

theorem okOracle_run (v : Bool) : FullySuccessful (runMain v okOracle) := by
  have h := runMain_of_allSucceed v okOracle okOracle_allSucceed (fun _ => okOracle_reportsVMM)
  refine ⟨by rw [h]; rfl, by rw [h]; simp [Outcome.world], ?_⟩
  intro e he
  rw [h] at he
  exact status_stamp_of_allSucceed okOracle okOracle_allSucceed _ 0 e he

/-- C6: under every oracle whose calls all succeed and whose devices report
support for virtual memory management, the trace of the `USE_CUDA_VMM` build and
the trace of the default build, restricted to `cudaMemset`, `cudaStreamCreate`,
`ncclCommInitAll`, `ncclGroupStart`, `ncclAllReduce`, `ncclGroupEnd`,
`cudaStreamSynchronize` and `ncclCommDestroy`, are the same list of calls with
the same arguments, and both runs end with the success line and status 0. -/
theorem C6_builds_agree (o : Oracle) (h : AllSucceed o) (hv : ReportsVMM o) :
    (runMain true o).calls.filter Call.isShared
      = (runMain false o).calls.filter Call.isShared ∧
    (runMain true o).exitCode = some 0 ∧ (runMain false o).exitCode = some 0 ∧
    (runMain true o).world.out.getLast? = some (.stdout "Success \n") ∧
    (runMain false o).world.out.getLast? = some (.stdout "Success \n") := by
  have ht := runMain_of_allSucceed true o h (fun _ => hv)
  have hf := runMain_of_allSucceed false o h (fun hf => absurd hf (by decide))
  refine ⟨?_, by rw [ht]; rfl, by rw [hf]; rfl, by rw [ht]; rfl, by rw [hf]; rfl⟩
  rw [calls_of_allSucceed true o h (fun _ => hv),
    calls_of_allSucceed false o h (fun hf => absurd hf (by decide))]
  decide

/-- Instance of C6 at the oracle answering every call with success and storing 1. -/
theorem C6_builds_agree_witness :
    AllSucceed okOracle ∧ ReportsVMM okOracle ∧
    (runMain true okOracle).calls.filter Call.isShared
      = (runMain false okOracle).calls.filter Call.isShared :=
  ⟨fun _ _ => rfl, fun _ _ => ⟨1, by decide, rfl⟩,
    (C6_builds_agree okOracle (fun _ _ => rfl) (fun _ _ => ⟨1, by decide, rfl⟩)).1⟩

/-- C4 as stated fails: on the fully successful run of the default build under
`okOracle`, the trace of NCCL calls does not end with `ncclGroupEnd`: the two
`ncclCommDestroy` calls of line 134 follow it. -/
theorem C4_counterexample :
    FullySuccessful (runMain false okOracle) ∧
    (runMain false okOracle).calls.filter Call.isNccl
      ≠ [.ncclCommInitAll 2 [0, 1], .ncclGroupStart, allReduceCall 0, allReduceCall 1,
          .ncclGroupEnd] ∧
    ((runMain false okOracle).calls.filter Call.isNccl).getLast?
      = some (.ncclCommDestroy 1) := by
  refine ⟨okOracle_run false, ?_, ?_⟩
  · rw [calls_of_fullySuccessful false okOracle (okOracle_run false)]
    decide
  · rw [calls_of_fullySuccessful false okOracle (okOracle_run false)]
    decide

/-- C4, amended: on every fully successful run of either build the trace of
NCCL calls is exactly `ncclCommInitAll` over devices `[0, 1]` with `nDev = 2`,
`ncclGroupStart`, one `ncclAllReduce` per device index in increasing order,
`ncclGroupEnd`, and then one `ncclCommDestroy` per device index in increasing
order; the all-reduce for index `i` uses `sendbuff[i]`, `recvbuff[i]`,
`comms[i]` and `s[i]`. -/
theorem C4_nccl_trace (v : Bool) (o : Oracle) (h : FullySuccessful (runMain v o)) :
    (runMain v o).calls.filter Call.isNccl
      = [.ncclCommInitAll 2 [0, 1], .ncclGroupStart,
          .ncclAllReduce .sendbuff 0 .recvbuff 0 33554432 .ncclFloat .ncclSum 0 0,
          .ncclAllReduce .sendbuff 1 .recvbuff 1 33554432 .ncclFloat .ncclSum 1 1,
          .ncclGroupEnd, .ncclCommDestroy 0, .ncclCommDestroy 1] ∧
    (∀ sb si rb ri n dt op cm st, Call.ncclAllReduce sb si rb ri n dt op cm st ∈ (runMain v o).calls →
      sb = .sendbuff ∧ rb = .recvbuff ∧ ri = si ∧ cm = si ∧ st = si ∧ si < nDev) := by
  rw [calls_of_fullySuccessful v o h]
  constructor
  · cases v <;> decide
  · intro sb si rb ri n dt op cm st hm
    cases v <;>
      simp [script, probeSites, ctorSites, allocSites, ncclSites, syncSites, freeSites, nDev] at hm <;>
      rcases hm with hm | hm <;> simp [hm, nDev]

/-- Instance of amended C4 at the fully successful run of the `USE_CUDA_VMM` build. -/
theorem C4_nccl_trace_witness :
    FullySuccessful (runMain true okOracle) ∧
    (runMain true okOracle).calls.filter Call.isNccl
      = [.ncclCommInitAll 2 [0, 1], .ncclGroupStart,
          .ncclAllReduce .sendbuff 0 .recvbuff 0 33554432 .ncclFloat .ncclSum 0 0,
          .ncclAllReduce .sendbuff 1 .recvbuff 1 33554432 .ncclFloat .ncclSum 1 1,
          .ncclGroupEnd, .ncclCommDestroy 0, .ncclCommDestroy 1] :=
  ⟨okOracle_run true, (C4_nccl_trace true okOracle (okOracle_run true)).1⟩

/-- C5 as stated fails: on the fully successful run of the default build under
`okOracle` the stream of device 0 is created but no `cudaStreamDestroy` call
releases it (nor any other stream). -/
theorem C5_counterexample :
    FullySuccessful (runMain false okOracle) ∧
    Call.cudaStreamCreate 0 ∈ (runMain false okOracle).calls ∧
    (∀ i, Call.cudaStreamDestroy i ∉ (runMain false okOracle).calls) := by
  refine ⟨okOracle_run false, ?_, ?_⟩
  · rw [calls_of_fullySuccessful false okOracle (okOracle_run false)]
    decide
  · intro i
    rw [calls_of_fullySuccessful false okOracle (okOracle_run false)]
    simp [script, allocSites, ncclSites, syncSites, freeSites]

/-- C5, amended: on every fully successful run of the default build every
device buffer slot `sendbuff[i]`, `recvbuff[i]` (`i < nDev`) is allocated by
exactly one `cudaMalloc` and released by exactly one `cudaFree`, which comes
later in the trace; no other `cudaMalloc` or `cudaFree` of a buffer occurs, so
no buffer is released before it is allocated or released twice.  Streams
obtained from `cudaStreamCreate` are not released: the trace has no
`cudaStreamDestroy`. -/
theorem C5_buffers_matched (o : Oracle) (h : FullySuccessful (runMain false o)) :
    (∀ b i, i < nDev →
      (runMain false o).calls.count (.cudaMalloc b i byteCount) = 1 ∧
      (runMain false o).calls.count (.cudaFree b i) = 1 ∧
      (runMain false o).calls.indexOf (.cudaMalloc b i byteCount)
        < (runMain false o).calls.indexOf (.cudaFree b i)) ∧
    (∀ b i n, Call.cudaMalloc b i n ∈ (runMain false o).calls → i < nDev ∧ n = byteCount) ∧
    (∀ b i, Call.cudaFree b i ∈ (runMain false o).calls → i < nDev) ∧
    (∀ i, Call.cudaStreamDestroy i ∉ (runMain false o).calls) := by
  rw [calls_of_fullySuccessful false o h]
  refine ⟨?_, ?_, ?_, ?_⟩
  · intro b i hi
    have hi2 : i = 0 ∨ i = 1 := by unfold nDev at hi; omega
    rcases hi2 with rfl | rfl <;> cases b <;> decide
  · intro b i n hm
    simp [script, allocSites, ncclSites, syncSites, freeSites] at hm
    rcases hm with hm | hm | hm | hm <;> simp [hm, nDev]
  · intro b i hm
    simp [script, allocSites, ncclSites, syncSites, freeSites] at hm
    rcases hm with hm | hm | hm | hm <;> simp [hm, nDev]
  · intro i
    simp [script, allocSites, ncclSites, syncSites, freeSites]

/-- Instance of amended C5 at the fully successful run of the default build. -/
theorem C5_buffers_matched_witness :
    FullySuccessful (runMain false okOracle) ∧
    (runMain false okOracle).calls.count (.cudaFree .sendbuff 1) = 1 :=
  ⟨okOracle_run false,
    ((C5_buffers_matched okOracle (okOracle_run false)).1 .sendbuff 1 (by decide)).2.1⟩

theorem passed_not_failed (v : Int) (es : List Event) (h : passed v es = true) :
    ∀ e ∈ es, e.failed = false := by
  intro e he
  obtain ⟨t, rest, rfl⟩ := List.append_of_mem he
  exact (passed_mid v t e rest h).2.1

theorem status_of_not_failed (e : Event) (h : e.failed = false)
    (hk : e.site.check.aborts = true) : e.status = statusSuccess := by
  simpa [Event.failed, hk] using h

theorem failed_iff (e : Event) :
    e.failed = true ↔ e.site.check.aborts = true ∧ e.status ≠ statusSuccess := by
  simp [Event.failed]

theorem passed_status (v : Int) (es : List Event) (h : passed v es = true) (e : Event)
    (he : e ∈ es) (hk : e.site.check.aborts = true) : e.status = statusSuccess :=
  status_of_not_failed e (passed_not_failed v es h e he) hk

theorem diag_of_failed (e : Event) (h : e.failed = true) :
    ∃ d, e.diag = [d] ∧ d.isAbort = true ∧
      (d = .cudaError e.site.line e.status ∨ d = .ncclError e.site.line e.status) := by
  obtain ⟨hk, hs⟩ := (failed_iff e).mp h
  unfold Event.diag
  rw [if_neg hs]
  cases hc : e.site.check <;> simp [hc, Check.aborts] at hk ⊢ <;> rfl

/-- Every diagnostic caused by a call of the run is in the output. -/
theorem diags_subset_out (v : Bool) (o : Oracle) :
    ∀ x ∈ diags (runMain v o).world.trace, x ∈ (runMain v o).world.out := by
  intro x hx
  obtain ⟨done, post, _, _, hc⟩ := run_shape v o
  rcases hc with ⟨_, _, _, ho⟩ | ⟨t, e1, ls, ht, _, _, hl, _, _, _, ho⟩ |
    ⟨t, e1, ls, ht, _, _, hl, _, _, _, _, ho⟩
  · rw [ho]; simp [hx]
  · rw [ht, diags_append] at hx
    rw [ho]
    simpa [diags, diags_lookups ls (fun y hy => (hl y hy).1)] using hx
  · rw [ht, diags_append] at hx
    rw [ho]
    have : x ∈ diags t ++ e1.diag := by
      simpa [diags, diags_lookups ls (fun y hy => (hl y hy).1)] using hx
    simp only [List.mem_append] at this ⊢
    exact Or.inl this

theorem checkSplitsFrom_spec (P : List Site → Site → Bool) (L acc : List Site)
    (h : checkSplitsFrom P acc L = true) (pre : List Site) (s : Site) (post : List Site)
    (hL : L = pre ++ s :: post) : P (acc ++ pre) s = true := by
  induction L generalizing acc pre with
  | nil => simp at hL
  | cons x L ih =>
    simp only [checkSplitsFrom, Bool.and_eq_true] at h
    cases pre with
    | nil =>
      simp only [List.nil_append, List.cons.injEq] at hL
      rw [List.append_nil, ← hL.1]
      exact h.1
    | cons y pre =>
      simp only [List.cons_append, List.cons.injEq] at hL
      have := ih (acc ++ [x]) h.2 pre hL.2
      rw [hL.1] at this
      simpa using this

theorem script_teardownAfterSync (v : Bool) :
    checkSplitsFrom teardownAfterSync [] (script v) = true := by
  cases v <;> decide

theorem mem_of_site_mem (t : List Event) (s : Site) (h : s ∈ (primary t).map Event.site) :
    ∃ g ∈ t, g.site = s := by
  obtain ⟨g, hg, hs⟩ := List.mem_map.mp h
  exact ⟨g, (List.mem_filter.mp hg).1, hs⟩

theorem not_lookup_of_teardown (c : Call) (h : c.isTeardown = true) : c.isLookup = false := by
  cases c <;> simp [Call.isTeardown] at h <;> rfl

theorem not_lookup_of_device (c : Call) (i : Nat) (h : c.device = some i) :
    c.isLookup = false := by
  cases c <;> simp [Call.device] at h <;> rfl

theorem not_lookup_of_setDevice (c : Call) (h : c.isSetDevice = true) : c.isLookup = false := by
  cases c <;> simp [Call.isSetDevice] at h
  rfl

theorem not_lookup_of_probe (c : Call) (h : c.isProbe = true) : c.isLookup = false := by
  cases c <;> simp [Call.isProbe] at h
  rfl

/-- C8: in every run of either build, successful or aborted, a `cudaFree` of a
send or receive buffer or an `ncclCommDestroy` appears in the trace only after
`ncclGroupEnd` has returned success and `cudaStreamSynchronize` has returned
success for the stream of every device index below `nDev`. -/
theorem C8_teardown_after_sync (v : Bool) (o : Oracle) (t : List Event) (e : Event)
    (rest : List Event) (h : (runMain v o).world.trace = t ++ e :: rest)
    (hc : e.site.call.isTeardown = true) :
    (∃ g ∈ t, g.site.call = .ncclGroupEnd ∧ g.status = statusSuccess) ∧
    (∀ i, i < nDev →
      ∃ g ∈ t, g.site.call = .cudaStreamSynchronize i ∧ g.status = statusSuccess) := by
  have hnl := not_lookup_of_teardown _ hc
  have hp := passed_before v o t e rest h hnl
  obtain ⟨post, hs⟩ := script_split v o t e rest h hnl
  have hst := checkSplitsFrom_spec teardownAfterSync (script v) []
    (script_teardownAfterSync v) ((primary t).map Event.site) e.site post hs
  simp only [teardownAfterSync, hc, Bool.not_true, Bool.false_or, Bool.and_eq_true,
    decide_eq_true_eq, List.nil_append] at hst
  obtain ⟨⟨h1, h2⟩, h3⟩ := hst
  constructor
  · obtain ⟨g, hg, hgs⟩ := mem_of_site_mem t _ h1
    exact ⟨g, hg, by rw [hgs]; rfl, passed_status 0 t hp g hg (by rw [hgs]; rfl)⟩
  · intro i hi
    have hi2 : i = 0 ∨ i = 1 := by unfold nDev at hi; omega
    rcases hi2 with rfl | rfl
    · obtain ⟨g, hg, hgs⟩ := mem_of_site_mem t _ h2
      exact ⟨g, hg, by rw [hgs]; rfl, passed_status 0 t hp g hg (by rw [hgs]; rfl)⟩
    · obtain ⟨g, hg, hgs⟩ := mem_of_site_mem t _ h3
      exact ⟨g, hg, by rw [hgs]; rfl, passed_status 0 t hp g hg (by rw [hgs]; rfl)⟩

/-- Instance of C8 at the first `cudaFree` of the fully successful default run. -/
theorem C8_teardown_after_sync_witness :
    (∃ g ∈ (runMain false okOracle).world.trace.take 22,
        g.site.call = .ncclGroupEnd ∧ g.status = statusSuccess) ∧
    (∀ i, i < nDev → ∃ g ∈ (runMain false okOracle).world.trace.take 22,
        g.site.call = .cudaStreamSynchronize i ∧ g.status = statusSuccess) :=
  C8_teardown_after_sync false okOracle ((runMain false okOracle).world.trace.take 22)
    ⟨⟨127, .cuda, .cudaFree .sendbuff 0⟩, 0, some 1⟩
    ((runMain false okOracle).world.trace.drop 23) (by decide) (by decide)

theorem script_deviceSelected : checkSplitsFrom deviceSelected [] (script false) = true := by
  decide

theorem primary_cons (g : Event) (t : List Event) :
    primary (g :: t) = if g.site.call.isLookup then primary t else g :: primary t := by
  by_cases h : g.site.call.isLookup = true <;> simp [primary, h]

theorem activeDeviceFrom_eq (t : List Event) (cur : Option Nat)
    (h : ∀ g ∈ t, g.site.call.isSetDevice = true → g.status = statusSuccess) :
    activeDeviceFrom cur t = lastSetDeviceFrom cur ((primary t).map Event.site) := by
  induction t generalizing cur with
  | nil => rfl
  | cons g t ih =>
    have ht : ∀ x ∈ t, x.site.call.isSetDevice = true → x.status = statusSuccess :=
      fun x hx => h x (List.mem_cons_of_mem _ hx)
    have hg := h g (List.mem_cons_self _ _)
    rw [primary_cons]
    simp only [activeDeviceFrom]
    cases hc : g.site.call <;>
      simp only [hc, Call.isSetDevice, Call.isLookup, if_true, Bool.false_eq_true, if_false,
        List.map_cons, lastSetDeviceFrom] at hg ⊢ <;>
      first
        | exact ih _ ht
        | (rw [if_pos (hg trivial)]; exact ih _ ht)

/-- C7: in every run of the default build, each device-scoped runtime call for
device index `i` (`cudaMalloc`, `cudaMemset`, `cudaStreamCreate`,
`cudaStreamSynchronize`, `cudaFree` on `sendbuff[i]`, `recvbuff[i]` or `s[i]`)
is issued while the active device is `i`: the most recent successful
`cudaSetDevice` before it in the trace had argument `i`.  In particular a
buffer is freed under the device it was allocated under. -/
theorem C7_active_device (o : Oracle) (t : List Event) (e : Event) (rest : List Event)
    (i : Nat) (h : (runMain false o).world.trace = t ++ e :: rest)
    (hd : e.site.call.device = some i) : activeDevice t = some i := by
  have hnl := not_lookup_of_device _ i hd
  have hp := passed_before false o t e rest h hnl
  obtain ⟨post, hs⟩ := script_split false o t e rest h hnl
  have hst := checkSplitsFrom_spec deviceSelected (script false) []
    script_deviceSelected ((primary t).map Event.site) e.site post hs
  simp only [deviceSelected, hd, Bool.and_eq_true, beq_iff_eq, List.nil_append] at hst
  have hset : ∀ g ∈ t, g.site.call.isSetDevice = true → g.status = statusSuccess := by
    intro g hg hsd
    obtain ⟨t1, r1, ht1⟩ := List.append_of_mem hg
    have htr : (runMain false o).world.trace = t1 ++ g :: (r1 ++ e :: rest) := by
      rw [h, ht1]; simp
    obtain ⟨post1, hsplit⟩ := script_split false o t1 g _ htr (not_lookup_of_setDevice _ hsd)
    have hg2 := checkSplitsFrom_spec deviceSelected (script false) []
      script_deviceSelected ((primary t1).map Event.site) g.site _ hsplit
    simp only [deviceSelected, hsd, Bool.not_true, Bool.false_or, Bool.and_eq_true] at hg2
    exact passed_status 0 t hp g hg hg2.1
  unfold activeDevice
  rw [activeDeviceFrom_eq t none hset]
  exact hst.2

/-- Instance of C7 at the last `cudaFree` of the fully successful default run. -/
theorem C7_active_device_witness :
    activeDevice ((runMain false okOracle).world.trace.take 26) = some 1 :=
  C7_active_device okOracle ((runMain false okOracle).world.trace.take 26)
    ⟨⟨128, .cuda, .cudaFree .recvbuff 1⟩, 0, some 1⟩
    ((runMain false okOracle).world.trace.drop 27) 1 (by decide) (by decide)

theorem script_probeBeforeWork : checkSplitsFrom probeBeforeWork [] (script true) = true := by
  decide

theorem probeValues_append (v : Int) (a b : List Event) :
    probeValues v (a ++ b) = probeValues v a ++ probeValues (vmmAfter v a) b := by
  induction a generalizing v with
  | nil => rfl
  | cons e a ih => simp [probeValues, vmmAfter, ih]

theorem zero_not_mem_probeValues (v : Int) (es : List Event) (h : passed v es = true) :
    (0 : Int) ∉ probeValues v es := by
  induction es generalizing v with
  | nil => simp [probeValues]
  | cons e es ih =>
    simp only [passed, Bool.and_eq_true, Bool.not_eq_true'] at h
    obtain ⟨⟨_, ht⟩, hp⟩ := h
    simp only [probeValues, List.mem_append, not_or]
    refine ⟨?_, ih _ hp⟩
    by_cases hpr : e.site.call.isProbe = true
    · simp only [Event.tripped, hpr, Bool.true_and, beq_eq_false_iff_ne, ne_eq] at ht
      simp only [hpr, if_true, List.mem_singleton]
      exact fun h0 => ht h0.symm
    · simp [hpr]

theorem script_probeIsDrv : checkSplitsFrom probeIsDrv [] (script true) = true := by
  decide

theorem lookup_not_bufferWork (g : Event) (x : Site) (h : x ∈ lookupSites g)
    (hk : g.site.check ≠ .nccl) : x.call.isBufferWork = false := by
  unfold lookupSites at h
  by_cases hs : g.status = statusSuccess
  · simp [hs] at h
  · rw [if_neg hs] at h
    cases hc : g.site.check <;> simp [hc, lookupSite] at h hk <;> rw [h] <;> rfl

/-- C10: in the `USE_CUDA_VMM` build, if the value of `supportsVMM` is 0 right
after some `cuDeviceGetAttribute` call of the run, then `main` returns exit
status 0 (not `EXIT_FAILURE`), its last output is the message of line 73, the
success line is not printed, the trace ends at that call (followed only by the
`cuGetErrorString` lookup of `checkDrvError` if the call failed), and no buffer
grow or allocation, `cudaMemset`, `cudaStreamCreate` or NCCL call has been
issued.  A failing `CHECK_DRV`-wrapped call of such a run only has its
diagnostic printed: the exit status is still 0. -/
theorem C10_unsupported_returns_zero (o : Oracle)
    (h : (0 : Int) ∈ probeValues 0 (runMain true o).world.trace) :
    (runMain true o).exitCode = some 0 ∧ (runMain true o).exitCode ≠ some EXIT_FAILURE ∧
    Output.stdout successText ∉ (runMain true o).world.out ∧
    (runMain true o).world.out.getLast? = some (.stderr "not support CUDA VMM\n") ∧
    (∃ t e i rest, (runMain true o).world.trace = t ++ e :: rest ∧
      e.site.call = .cuDeviceGetAttribute i ∧ vmmAfter 0 (t ++ [e]) = 0 ∧
      rest.map (fun x => x.site.call)
        = if e.status = statusSuccess then [] else [.cuGetErrorString e.status]) ∧
    (∀ c ∈ (runMain true o).calls, c.isBufferWork = false) ∧
    (∀ e ∈ (runMain true o).world.trace, e.site.check = .drv → e.status ≠ statusSuccess →
      Output.drvError e.site.line e.status ∈ (runMain true o).world.out) := by
  have hdrv : ∀ e ∈ (runMain true o).world.trace, e.site.check = .drv →
      e.status ≠ statusSuccess →
      Output.drvError e.site.line e.status ∈ (runMain true o).world.out := by
    intro e he hk hs
    apply diags_subset_out true o
    obtain ⟨t1, r1, ht1⟩ := List.append_of_mem he
    rw [ht1, diags_append]
    simp [diags, Event.diag, hs, hk]
  obtain ⟨done, post, hs, hst0, hc⟩ := run_shape true o
  rcases hc with ⟨_, hp, _⟩ | ⟨t, e, ls, ht, hp, _, hl, hmem, hf, _⟩ |
    ⟨t, e, ls, ht, hp, hl1, hl, hmem, hf, htr, hx, ho⟩
  · exact absurd h (zero_not_mem_probeValues 0 _ hp)
  · exfalso
    have hk : e.site.check.aborts = true := ((failed_iff e).mp hf).1
    have hnp : e.site.call.isProbe = false := by
      by_contra hpr
      simp only [Bool.not_eq_false] at hpr
      obtain ⟨pre1, post1, hsp⟩ := List.append_of_mem hmem
      have hst := checkSplitsFrom_spec probeBeforeWork (script true) []
        script_probeBeforeWork pre1 e.site post1 hsp
      simp [probeBeforeWork, hpr, hk] at hst
    have hpe : passed 0 (t ++ e :: ls) = false → False := by
      intro _
      rw [ht, probeValues_append, List.mem_append] at h
      rcases h with h | h
      · exact zero_not_mem_probeValues 0 t hp h
      · simp only [probeValues, hnp, Bool.false_eq_true, if_false, List.nil_append] at h
        have hls : ∀ (w : Int) (xs : List Event),
            (∀ x ∈ xs, x.site.call.isLookup = true) → probeValues w xs = [] := by
          intro w xs
          induction xs generalizing w with
          | nil => intro _; rfl
          | cons y ys ih =>
            intro hy
            have hy1 := hy y (List.mem_cons_self _ _)
            have : y.site.call.isProbe = false := by
              cases hcy : y.site.call <;> simp [hcy, Call.isLookup] at hy1 <;> rfl
            simp [probeValues, this, ih _ (fun z hz => hy z (List.mem_cons_of_mem _ hz))]
        rw [hls _ ls (fun x hx => (hl x hx).2)] at h
        simp at h
    apply hpe
    rw [passed_append]
    simp [passed, hf]
  · simp only [Event.tripped, Bool.and_eq_true, beq_iff_eq] at htr
    obtain ⟨hpr, hv0⟩ := htr
    have hnl : e.site.call.isLookup = false := not_lookup_of_probe _ hpr
    obtain ⟨post1, hsp⟩ := script_split true o t e ls ht hnl
    have hst := checkSplitsFrom_spec probeBeforeWork (script true) []
      script_probeBeforeWork ((primary t).map Event.site) e.site post1 hsp
    simp only [probeBeforeWork, hpr, Bool.not_true, Bool.false_or, Bool.and_eq_true,
      List.nil_append, List.all_eq_true, Bool.not_eq_true', decide_eq_true_eq] at hst
    have hdone : done = (primary t).map Event.site ++ [e.site] := by
      have hd : ∀ s ∈ done, s.call.isLookup = false := by
        intro s hsd
        apply script_no_lookup true
        rw [hs]
        exact List.mem_append_left _ hsd
      have hp1 := primary_stamp o done 0 hd
      rw [← hst0, ht] at hp1
      have : primary (t ++ e :: ls) = primary t ++ [e] := by
        have h1 : t ++ e :: ls = t ++ ([e] ++ ls) := rfl
        rw [h1, primary_append, primary_append, primary_lookups ls (fun x hx => (hl x hx).2)]
        simp [primary, hnl]
      rw [this] at hp1
      rw [← hp1]
      simp
    have hdrvk : e.site.check = .drv := by
      cases hk : e.site.check
      · simp [hk, Check.aborts] at hst
      · simp [hk, Check.aborts] at hst
      · rfl
      · exfalso
        obtain ⟨pre1, post2, hsp2⟩ := List.append_of_mem hmem
        have := checkSplitsFrom_spec probeIsDrv (script true) [] script_probeIsDrv
          pre1 e.site post2 hsp2
        simp [probeIsDrv, hpr, hk] at this
    refine ⟨hx, by rw [hx]; decide, ?_, by rw [ho]; simp [notSupportedText], ?_, ?_, hdrv⟩
    · rw [ho]
      intro hm
      simp only [List.mem_append, List.mem_singleton] at hm
      rcases hm with (hm | hm) | hm
      · exact stdout_not_mem_diags _ _ hm
      · exact stdout_not_mem_diag _ _ hm
      · exact Output.noConfusion hm
    · have hcall : ∃ i, e.site.call = .cuDeviceGetAttribute i := by
        cases hcc : e.site.call <;> simp [hcc, Call.isProbe] at hpr ⊢
      obtain ⟨i, hi⟩ := hcall
      refine ⟨t, e, i, ls, ht, hi, ?_, ?_⟩
      · rw [vmmAfter_append]
        simpa [vmmAfter] using hv0
      · have hmap : ls.map (fun x => x.site.call) = (ls.map Event.site).map Site.call := by
          rw [List.map_map]; rfl
        rw [hmap, hl1]
        by_cases hse : e.status = statusSuccess
        · simp [lookupSites, hse]
        · simp [lookupSites, hse, hdrvk, lookupSite]
    · intro c hcm
      obtain ⟨g, hg, rfl⟩ := List.mem_map.mp hcm
      rw [hst0] at hg
      rcases mem_stamp o done 0 g hg with hgs | ⟨g1, _, hg1, hgl⟩
      · rw [hdone] at hgs
        exact (hst.2 g.site hgs).1
      · rw [hdone] at hg1
        exact lookup_not_bufferWork g1 g.site hgl (hst.2 g1.site hg1).2

/-- Instances of C10: a failing probe on the first device that stores nothing, and a second device reporting no support. -/
theorem C10_unsupported_returns_zero_witness :
    (0 : Int) ∈ probeValues 0 (runMain true probeFailsOracle).world.trace ∧
    (runMain true probeFailsOracle).exitCode = some 0 ∧
    (runMain true probeFailsOracle).world.out
      = [.drvError 71 1, .stderr "not support CUDA VMM\n"] ∧
    (0 : Int) ∈ probeValues 0 (runMain true secondUnsupportedOracle).world.trace ∧
    (runMain true secondUnsupportedOracle).exitCode = some 0 ∧
    (runMain true secondUnsupportedOracle).calls.length = 10 :=
  ⟨by decide, (C10_unsupported_returns_zero probeFailsOracle (by decide)).1, by decide,
    by decide, (C10_unsupported_returns_zero secondUnsupportedOracle (by decide)).1, by decide⟩


end SingleProcessMultiGpu
